import Mathlib

/-!
Verification development for the bitcoin-indexer repository.

The indexing engine is embedded shallowly:

* JavaScript numbers (IEEE binary64) are modelled as the exact rational
  values of the doubles involved, with an executable round-to-nearest
  (ties to even) function `roundDouble` covering the normal range used by
  the program; `jsMul` is double multiplication, `mathRound` is
  `Math.round`.
* The TypeORM/Postgres path (`DatabaseService` in
  src/services/DatabaseService.ts together with `TypeORMIndexerAdapter`)
  is embedded as pure functions on `DbState`, whose lists mirror the
  entity tables.  The `try/catch` of `updateAddressBalance`, which logs
  and swallows any error of the inner storage transaction, is modelled by
  a `fail` flag: `fail = true` is a run in which that inner transaction
  failed and was rolled back, the catch handler then returns normally.
* The SQLite path (`SimpleIndexer` in src/index-simple.ts, whose
  `indexTransaction` / `markOutputAsSpent` / `updateAddressInfo` bodies
  the class `BitcoinIndexer` shares almost verbatim) is embedded as pure
  functions on `SqlState`; `INSERT OR REPLACE` and `INSERT OR IGNORE` are
  modelled against the primary keys of src/database/schema.ts.
* Chain-node RPC results are supplied by explicit adapter functions;
  fallible RPC calls return `Except RpcError`.

All definitions are executable and kernel-reducible so that concrete runs
can be settled by `decide`.
-/

/-! ## JavaScript number model (IEEE binary64 as exact rationals)

`Rat.mul` and friends are `@[irreducible]` in this toolchain, so all
rational arithmetic below is spelled out through `mkRat`, `Rat.num`,
`Rat.den`, which the kernel evaluates. -/

/-- Fuel-based floor of binary logarithm (kernel-reducible replacement for
`Nat.log2`, which is defined by well-founded recursion). -/
def log2fuel : Nat → Nat → Nat
  | 0, _ => 0
  | fuel+1, n => if n ≥ 2 then log2fuel fuel (n / 2) + 1 else 0

/-- Floor of the binary logarithm of a natural number (0 for 0 and 1). -/
def natLog2 (n : Nat) : Nat := log2fuel n n

/-- Multiply a rational by `2 ^ k` (`k` may be negative), using only `mkRat`. -/
def mulPow2 (q : ℚ) (k : Int) : ℚ :=
  if 0 ≤ k then mkRat (q.num * (2 ^ k.toNat : Nat)) q.den
  else mkRat q.num (q.den * (2 ^ (-k).toNat : Nat))

/-- Rational multiplication through `mkRat` (kernel-reducible). -/
def ratMul (a b : ℚ) : ℚ := mkRat (a.num * b.num) (a.den * b.den)

/-- Floor of the binary logarithm of a positive rational. -/
def ratLog2 (q : ℚ) : Int :=
  let g : Int := (natLog2 q.num.natAbs : Int) - (natLog2 q.den : Int)
  if (mulPow2 q (-g)).num < (mulPow2 q (-g)).den then g - 1 else g

/-- Round `n / d` (with `d > 0`, `n ≥ 0`) to the nearest integer, ties to even. -/
def roundHalfEven (n : Int) (d : Int) : Int :=
  let m := Int.fdiv n d
  let r := n - d * m
  if 2 * r < d then m
  else if d < 2 * r then m + 1
  else if m % 2 = 0 then m else m + 1

/-- Round a positive rational to the nearest IEEE binary64 value: scale into
the mantissa window `[2^52, 2^53)`, round ties to even, scale back.  Covers
the normal range, which contains every magnitude this program handles. -/
def roundDoublePos (q : ℚ) : ℚ :=
  let k : Int := 52 - ratLog2 q
  let scaled := mulPow2 q k
  let m := roundHalfEven scaled.num (scaled.den : Int)
  mulPow2 (mkRat m 1) (-k)

/-- The IEEE binary64 value nearest a rational (round to nearest, ties to
even).  This is the double a JSON numeric literal or a JavaScript
arithmetic result becomes. -/
def roundDouble (q : ℚ) : ℚ :=
  if q.num = 0 then 0
  else if 0 < q.num then roundDoublePos q
  else - roundDoublePos (-q)

/-- JavaScript double multiplication: the exact product, rounded back to
binary64. -/
def jsMul (a b : ℚ) : ℚ := roundDouble (ratMul a b)

/-- JavaScript `Math.round`: nearest integer, halves rounded up
(`⌊q + 1/2⌋`), computed on the rational value of the double. -/
def mathRound (q : ℚ) : Int := Int.fdiv (2 * q.num + q.den) (2 * q.den)

/-- The conversion factor `100000000` used by every `* 100000000`
satoshi conversion in the source (exactly representable in binary64). -/
def sat1e8 : ℚ := mkRat 100000000 1

/-- A rational is an exact integer iff its reduced denominator is 1. -/
def ratIsInt (q : ℚ) : Bool := q.den == 1

/-! ## RPC data shapes (src/types/bitcoin.ts)

Only the fields the modelled code reads are kept; `value` fields are the
exact rational values of the binary64 doubles produced by JSON parsing. -/

/-- Shape of `scriptPubKey` inside a `vout` entry. -/
structure SPKData where
  hex : String
  address : Option String
  addresses : List String
  deriving Repr, DecidableEq

/-- Shape of one `vin` entry (`BitcoinInput`).  A vin entry carries no `n`
field in the source interface. -/
structure VinData where
  txid : Option String
  vout : Option Nat
  sequence : Nat
  coinbase : Option String
  deriving Repr, DecidableEq

/-- Shape of one `vout` entry (`BitcoinOutput`); `value` is the BTC amount
as the binary64 double the chain node's JSON yielded. -/
structure VoutData where
  value : ℚ
  n : Nat
  scriptPubKey : SPKData
  deriving Repr, DecidableEq

/-- Shape of a full transaction (`BitcoinTransaction`); scalar metadata
fields not read by the modelled logic are omitted. -/
structure TxData where
  txid : String
  hash : String
  vin : List VinData
  vout : List VoutData
  blockhash : Option String
  blockheight : Option Nat
  blocktime : Option Nat
  fee : Option Int
  deriving Repr, DecidableEq

/-- Shape of a block (`BitcoinBlock`); `tx` is the txid list. -/
structure BlockData where
  hash : String
  height : Nat
  time : Nat
  previousblockhash : Option String
  tx : List String
  deriving Repr, DecidableEq

/-- Error shape of a failed RPC call; the source dispatches on `error.code`. -/
structure RpcError where
  code : Int
  deriving Repr, DecidableEq

/-- JavaScript truthiness for `x || null` on an optional number: `0` is
falsy and collapses to `null`. -/
def jsOrNullNat (o : Option Nat) : Option Nat :=
  match o with
  | some n => if n = 0 then none else some n
  | none => none

/-- JavaScript truthiness for `x || null` on an optional integer amount. -/
def jsOrNullInt (o : Option Int) : Option Int :=
  match o with
  | some n => if n = 0 then none else some n
  | none => none

/-- The address a vout resolves to:
`output.scriptPubKey?.address || output.scriptPubKey?.addresses?.[0]`. -/
def voutAddress (o : VoutData) : Option String :=
  match o.scriptPubKey.address with
  | some a => some a
  | none => o.scriptPubKey.addresses.head?

/-- Whether a transaction is coinbase: `tx.vin[0]?.coinbase` truthy. -/
def isCoinbaseTx (tx : TxData) : Bool :=
  ((tx.vin.head?).bind (·.coinbase)).isSome

/-- The integer satoshi amount of a vout as every `Math.round(value * 1e8)`
site computes it (`BitcoinIndexer.indexTransaction`,
`SimpleIndexer.indexTransaction`, `TypeORMIndexerAdapter`). -/
def voutSats (o : VoutData) : Int := mathRound (jsMul o.value sat1e8)

/-! ## Generic list-table helpers -/

/-- Replace the first element satisfying `p` by `x` (used to model saving a
fetched-and-mutated entity row back, and SQL `UPDATE ... WHERE key`). -/
def replaceFirst {α : Type} (p : α → Bool) (x : α) : List α → List α
  | [] => []
  | a :: as => if p a then x :: as else a :: replaceFirst p x as

/-- SQLite `INSERT OR REPLACE` against the row's primary key predicate. -/
def insertOrReplace {α : Type} (p : α → Bool) (x : α) (l : List α) : List α :=
  if l.any p then replaceFirst p x l else l ++ [x]

/-! ## TypeORM path: entity rows and `DatabaseService`
(src/services/DatabaseService.ts, entity classes of src/entities) -/

/-- Row of the `blocks` entity table (fields the model reads). -/
structure BlockRow where
  hash : String
  height : Nat
  deriving Repr, DecidableEq

/-- Row of the `transactions` entity table.  `saveTransaction` stores the
monetary columns as the fixed strings shown in the source; `fee` keeps the
numeric content of that string. -/
structure TxRow where
  txid : String
  block_height : Option Nat
  is_coinbase : Bool
  fee : Int
  deriving Repr, DecidableEq

/-- Row of the `transaction_inputs` entity table.  The lookup key the
source uses is `(transaction_id, inputData.n || 0)`; a vin entry has no
`n` field, so the stored `input_index` is always `0`. -/
structure InputRow where
  transaction_id : String
  input_index : Nat
  previous_output_txid : Option String
  previous_output_index : Option Nat
  deriving Repr, DecidableEq

/-- Row of the `transaction_outputs` entity table; `value` holds the exact
numeric content of the stored string `(outputData.value * 100000000).toString()`,
which is a binary64 product and need not be an integer. -/
structure OutputRow where
  transaction_id : String
  output_index : Nat
  value : ℚ
  address : Option String
  deriving Repr, DecidableEq

/-- Row of the `utxos` entity table. -/
structure UtxoRow where
  transaction_id : String
  output_index : Nat
  address : String
  value : Int
  block_height : Nat
  block_time : Nat
  is_spent : Bool
  spent_by_txid : Option String
  spent_by_input_index : Option Nat
  spent_at_height : Option Nat
  deriving Repr, DecidableEq

/-- Row of the `addresses` entity table. -/
structure AddressRow where
  address : String
  balance : Int
  total_received : Int
  total_sent : Int
  transaction_count : Int
  utxo_count : Int
  deriving Repr, DecidableEq

/-- The persistent store of the TypeORM path: one list per entity table,
plus the `indexer_state` row `last_processed_height` (`-1` when unset, per
`getLastProcessedHeight`). -/
structure DbState where
  blocks : List BlockRow
  transactions : List TxRow
  inputs : List InputRow
  outputs : List OutputRow
  utxos : List UtxoRow
  addresses : List AddressRow
  lastProcessedHeight : Int
  deriving Repr, DecidableEq

/-- The empty store. -/
def initialDb : DbState := ⟨[], [], [], [], [], [], -1⟩

/-- `DatabaseService.getBlockByHeight` (existence view). -/
def getBlockByHeight (st : DbState) (height : Nat) : Option BlockRow :=
  st.blocks.find? (fun b => b.height == height)

/-- `DatabaseService.saveBlock`: skip when a block with this hash exists,
otherwise insert. -/
def saveBlock (st : DbState) (b : BlockData) : DbState :=
  if (st.blocks.find? (fun r => r.hash == b.hash)).isSome then st
  else { st with blocks := st.blocks ++ [⟨b.hash, b.height⟩] }

/-- `DatabaseService.saveTransaction`: skip when a transaction with this
txid exists, otherwise insert with `fee = '0'`,
`block_height = blockHeight || null` and
`is_coinbase = txData.vin?.[0]?.coinbase ? true : false`. -/
def saveTransaction (st : DbState) (tx : TxData) (blockHeight : Option Nat) : DbState :=
  if (st.transactions.find? (fun r => r.txid == tx.txid)).isSome then st
  else { st with transactions :=
    st.transactions ++ [⟨tx.txid, jsOrNullNat blockHeight, isCoinbaseTx tx, 0⟩] }

/-- `DatabaseService.saveTransactionInput`: the existence check and the
stored `input_index` both use `inputData.n || 0`, and a vin entry has no
`n`, so the key is always `(transactionId, 0)`. -/
def saveTransactionInput (st : DbState) (transactionId : String) (inp : VinData) : DbState :=
  if (st.inputs.find? (fun r => r.transaction_id == transactionId && r.input_index == 0)).isSome
  then st
  else { st with inputs :=
    st.inputs ++ [⟨transactionId, 0, inp.txid, inp.vout⟩] }

/-- `DatabaseService.saveTransactionOutput`: skip when the
`(transaction_id, output_index)` row exists, otherwise insert with
`value = (outputData.value * 100000000).toString()` — a bare binary64
multiplication, with no rounding. -/
def saveTransactionOutput (st : DbState) (transactionId : String) (o : VoutData) : DbState :=
  if (st.outputs.find? (fun r => r.transaction_id == transactionId && r.output_index == o.n)).isSome
  then st
  else { st with outputs :=
    st.outputs ++ [⟨transactionId, o.n, jsMul o.value sat1e8, voutAddress o⟩] }

/-- The fresh address row `getOrCreateAddress` / `updateAddressBalance`
create when the address is not yet present. -/
def newAddressRow (addr : String) : AddressRow := ⟨addr, 0, 0, 0, 0, 0⟩

/-- The field updates `updateAddressBalance` applies to the (found or
created) address row. -/
def applyBalanceChange (row : AddressRow) (balanceChange : Int) (isReceived : Bool) : AddressRow :=
  if isReceived then
    { row with balance := row.balance + balanceChange,
               total_received := row.total_received + balanceChange,
               transaction_count := row.transaction_count + 1 }
  else
    { row with balance := row.balance - balanceChange,
               total_sent := row.total_sent + balanceChange,
               transaction_count := row.transaction_count + 1 }

/-- `DatabaseService.updateAddressBalance`.  The body runs inside one inner
storage transaction whose failure is caught, logged and swallowed
(`// Don't throw - this is not critical for basic functionality`);
`fail = true` models a run where that inner transaction failed, so the
whole update rolls back and the call still returns normally. -/
def updateAddressBalance (fail : Bool) (addressStr : String) (balanceChange : Int)
    (isReceived : Bool) (st : DbState) : DbState :=
  if fail then st
  else
    match st.addresses.find? (fun r => r.address == addressStr) with
    | some row =>
        let updated := applyBalanceChange row balanceChange isReceived
        { st with addresses := replaceFirst (fun r => r.address == addressStr) updated st.addresses }
    | none =>
        let created := applyBalanceChange (newAddressRow addressStr) balanceChange isReceived
        { st with addresses := st.addresses ++ [created] }

/-- `DatabaseService.saveUTXO`: skip when the `(transaction_id, output_index)`
row exists, otherwise insert unspent. -/
def saveUTXO (st : DbState) (txid : String) (outputIndex : Nat) (addressStr : String)
    (value : Int) (blockHeight : Nat) (blockTime : Nat) : DbState :=
  if (st.utxos.find? (fun u => u.transaction_id == txid && u.output_index == outputIndex)).isSome
  then st
  else { st with utxos :=
    st.utxos ++ [⟨txid, outputIndex, addressStr, value, blockHeight, blockTime, false, none, none, none⟩] }

/-- `DatabaseService.spendUTXO`: `UPDATE utxos SET spent fields WHERE
(transaction_id, output_index)` — the row is kept, only its spent-related
columns change. -/
def spendUTXO (st : DbState) (txid : String) (outputIndex : Nat) (spentByTxid : String)
    (spentByInputIndex : Nat) (spentAtHeight : Nat) : DbState :=
  { st with utxos := st.utxos.map (fun u =>
      if u.transaction_id == txid && u.output_index == outputIndex then
        { u with is_spent := true,
                 spent_by_txid := some spentByTxid,
                 spent_by_input_index := some spentByInputIndex,
                 spent_at_height := some spentAtHeight }
      else u) }

/-- `DatabaseService.getUTXOByTxidAndIndex`. -/
def getUTXOByTxidAndIndex (st : DbState) (txid : String) (outputIndex : Nat) : Option UtxoRow :=
  st.utxos.find? (fun u => u.transaction_id == txid && u.output_index == outputIndex)

/-- `DatabaseService.setLastProcessedHeight`. -/
def setLastProcessedHeight (st : DbState) (height : Nat) : DbState :=
  { st with lastProcessedHeight := (height : Int) }

/-! ## TypeORM path: `TypeORMIndexerAdapter` (same source file) -/

/-- Body of the output loop of `TypeORMIndexerAdapter.processTransaction`:
save the output row, and when an address resolves, credit it with
`BigInt(Math.round(output.value * 100000000))` and save the UTXO. -/
def processOutputVout (fail : Bool) (txid : String) (blockHeight blockTime : Nat)
    (o : VoutData) (st : DbState) : DbState :=
  let st1 := saveTransactionOutput st txid o
  match voutAddress o with
  | some address =>
      let valueSatoshis := voutSats o
      let st2 := updateAddressBalance fail address valueSatoshis true st1
      saveUTXO st2 txid o.n address valueSatoshis blockHeight blockTime
  | none => st1

/-- `TypeORMIndexerAdapter.processInputSpending`: find the spent UTXO; when
present and unspent, mark it spent (`input.n || 0` is `0`) and debit the
owning address; when absent or already spent, do nothing.  The body's own
errors are caught and swallowed (`// Don't throw - continue processing
other inputs`). -/
def processInputSpending (fail : Bool) (previousTxid : String) (previousVout : Nat)
    (spendingTxid : String) (blockHeight : Nat) (st : DbState) : DbState :=
  match getUTXOByTxidAndIndex st previousTxid previousVout with
  | some utxo =>
      if utxo.is_spent then st
      else
        let st1 := spendUTXO st previousTxid previousVout spendingTxid 0 blockHeight
        updateAddressBalance fail utxo.address utxo.value false st1
  | none => st

/-- Body of the input loop of `TypeORMIndexerAdapter.processTransaction`:
save the input row, and track spending when the vin carries
`txid && vout !== undefined` (i.e. is not coinbase). -/
def processVinStep (fail : Bool) (txid : String) (blockHeight : Nat)
    (inp : VinData) (st : DbState) : DbState :=
  let st1 := saveTransactionInput st txid inp
  match inp.txid, inp.vout with
  | some previousTxid, some previousVout =>
      processInputSpending fail previousTxid previousVout txid blockHeight st1
  | _, _ => st1

/-- `TypeORMIndexerAdapter.processTransaction` after the RPC fetch: save the
transaction, process all inputs, then all outputs. -/
def processTransactionData (fail : Bool) (tx : TxData) (blockHeight blockTime : Nat)
    (st : DbState) : DbState :=
  let st1 := saveTransaction st tx (some blockHeight)
  let st2 := tx.vin.foldl (fun s inp => processVinStep fail tx.txid blockHeight inp s) st1
  tx.vout.foldl (fun s o => processOutputVout fail tx.txid blockHeight blockTime o s) st2

/-- The synthetic genesis coinbase descriptor hard-coded in
`TypeORMIndexerAdapter.processGenesisTransaction` (`value: 50.0`, one
`pubkey` output to the genesis address; 50.0 is exactly representable in
binary64). -/
def genesisTxData (txid : String) : TxData :=
  { txid := txid
    hash := txid
    vin := [⟨none, none, 4294967295, some "04ffff001d0104455468652054696d6573"⟩]
    vout := [⟨mkRat 50 1, 0,
      ⟨"4104678afdb0fe5548271967f1a67130b7105cd6a828e03909a67962e0ea1f61deb649f6bc3f4cef38c4f35504e51ec112de5c384df7ba0b8d578a4c702b6bf11d5fac",
        none, ["1A1zP1eP5QGefi2DMPTfTL5SLmv7DivfNa"]⟩⟩]
    blockhash := none
    blockheight := none
    blocktime := none
    fee := none }

/-- `TypeORMIndexerAdapter.processGenesisTransaction`: save the synthetic
transaction and process its outputs only (no input rows are saved); the
address is taken from `output.scriptPubKey?.addresses?.[0]`. -/
def processGenesisTransaction (fail : Bool) (txid : String) (blockHeight blockTime : Nat)
    (st : DbState) : DbState :=
  let gtx := genesisTxData txid
  let st1 := saveTransaction st gtx (some blockHeight)
  gtx.vout.foldl (fun s o =>
    let s1 := saveTransactionOutput s txid o
    match o.scriptPubKey.addresses.head? with
    | some address =>
        let valueSatoshis := voutSats o
        let s2 := updateAddressBalance fail address valueSatoshis true s1
        saveUTXO s2 txid o.n address valueSatoshis blockHeight blockTime
    | none => s1) st1

/-- The chain-node RPC surface `TypeORMIndexerAdapter.syncBlocks` consumes.
`getBlockHash`/`getBlock` are modelled as total (their failure aborts the
whole sync and is not the behaviour under study); `getTransaction` may
fail with an `RpcError`, which drives the genesis special case. -/
structure ChainRpc where
  getBlockHash : Nat → String
  getBlock : String → BlockData
  getTransaction : String → Except RpcError TxData

/-- One iteration of the height loop of `TypeORMIndexerAdapter.syncBlocks`:
skip heights whose block row already exists (only advancing the cursor);
otherwise fetch and save the block and process its transactions, where a
transaction whose fetch fails with code `-5` at height `0` goes through
`processGenesisTransaction` and any other failing transaction is logged
and skipped (`// Continue with other transactions instead of failing the
entire block`); finally advance the cursor. -/
def syncStep (fail : Bool) (rpc : ChainRpc) (height : Nat) (st : DbState) : DbState :=
  match getBlockByHeight st height with
  | some _ => setLastProcessedHeight st height
  | none =>
      let blockData := rpc.getBlock (rpc.getBlockHash height)
      let st1 := saveBlock st blockData
      let st2 := blockData.tx.foldl (fun s txid =>
        match rpc.getTransaction txid with
        | .ok txData => processTransactionData fail txData height blockData.time s
        | .error e =>
            if e.code = -5 ∧ height = 0 then
              processGenesisTransaction fail txid height blockData.time s
            else s) st1
      setLastProcessedHeight st2 height

/-- `TypeORMIndexerAdapter.syncBlocks`: the `for (height = fromHeight;
height <= toHeight; height++)` loop. -/
def syncBlocksAdapter (fail : Bool) (rpc : ChainRpc) (fromHeight toHeight : Nat)
    (st : DbState) : DbState :=
  (List.range' fromHeight (toHeight + 1 - fromHeight)).foldl
    (fun s h => syncStep fail rpc h s) st

/-! ## SQLite path: `SimpleIndexer` (src/index-simple.ts)

`BitcoinIndexer` (src/services) shares the same `syncBlocks`,
`markOutputAsSpent`, `addUTXO` and `updateAddressInfo` statements; its
`indexTransaction` differs only in not debiting the spending address.
Primary keys follow src/database/schema.ts: `blocks(hash)`,
`transactions(txid)`, `transaction_inputs UNIQUE(txid, vout)`,
`transaction_outputs UNIQUE(txid, vout)`, `utxos(txid, vout)`,
`addresses(address)`. -/

/-- Row of the SQLite `blocks` table (fields the model reads). -/
structure SqlBlockRow where
  hash : String
  height : Nat
  deriving Repr, DecidableEq

/-- Row of the SQLite `transactions` table; `fee` is the nullable BIGINT
column. -/
structure SqlTxRow where
  txid : String
  block_height : Option Nat
  fee : Option Int
  deriving Repr, DecidableEq

/-- Row of the SQLite `transaction_inputs` table. -/
structure SqlInputRow where
  txid : String
  vout : Nat
  prev_txid : Option String
  prev_vout : Option Nat
  prev_value : Option Int
  prev_address : Option String
  deriving Repr, DecidableEq

/-- Row of the SQLite `transaction_outputs` table. -/
structure SqlOutputRow where
  txid : String
  vout : Nat
  value : Int
  address : Option String
  is_spent : Bool
  spent_txid : Option String
  spent_vout : Option Nat
  deriving Repr, DecidableEq

/-- Row of the SQLite `utxos` table. -/
structure SqlUtxoRow where
  txid : String
  vout : Nat
  address : String
  value : Int
  block_height : Nat
  is_coinbase : Bool
  deriving Repr, DecidableEq

/-- Row of the SQLite `addresses` table. -/
structure SqlAddressRow where
  address : String
  received_count : Int
  sent_count : Int
  balance : Int
  total_received : Int
  total_sent : Int
  first_seen_block : Option Nat
  last_seen_block : Option Nat
  deriving Repr, DecidableEq

/-- The SQLite store. -/
structure SqlState where
  blocks : List SqlBlockRow
  transactions : List SqlTxRow
  transaction_inputs : List SqlInputRow
  transaction_outputs : List SqlOutputRow
  utxos : List SqlUtxoRow
  addresses : List SqlAddressRow
  deriving Repr, DecidableEq

/-- The empty SQLite store. -/
def initialSql : SqlState := ⟨[], [], [], [], [], []⟩

/-- `getPreviousOutput`: `SELECT value, address FROM transaction_outputs
WHERE txid = ? AND vout = ?`. -/
def getPreviousOutput (st : SqlState) (txid : String) (vout : Nat) : Option SqlOutputRow :=
  st.transaction_outputs.find? (fun r => r.txid == txid && r.vout == vout)

/-- `markOutputAsSpent`: set the spent fields of the matching
`transaction_outputs` row, then `DELETE FROM utxos WHERE txid = ? AND
vout = ?` — the utxo-set row is removed immediately, at any depth. -/
def markOutputAsSpent (txid : String) (vout : Nat) (spentTxid : String) (spentVout : Nat)
    (st : SqlState) : SqlState :=
  { st with
    transaction_outputs := st.transaction_outputs.map (fun r =>
      if r.txid == txid && r.vout == vout then
        { r with is_spent := true, spent_txid := some spentTxid, spent_vout := some spentVout }
      else r)
    utxos := st.utxos.filter (fun u => !(u.txid == txid && u.vout == vout)) }

/-- `addUTXO`: `INSERT OR REPLACE INTO utxos`. -/
def addUTXO (u : SqlUtxoRow) (st : SqlState) : SqlState :=
  { st with utxos := insertOrReplace (fun v => v.txid == u.txid && v.vout == u.vout) u st.utxos }

/-- `updateAddressInfo`: `INSERT OR IGNORE INTO addresses (address,
first_seen_block)` followed by an `UPDATE` that adds the value to
`balance` and to `total_received`/`total_sent`, bumps the corresponding
count, and refreshes `last_seen_block` via `COALESCE`.  Debits are applied
unconditionally (`balance = balance - ?`). -/
def updateAddressInfo (address : String) (value : Int) (isReceived : Bool)
    (blockHeight : Option Nat) (st : SqlState) : SqlState :=
  let base :=
    if st.addresses.any (fun r => r.address == address) then st.addresses
    else st.addresses ++ [⟨address, 0, 0, 0, 0, 0, blockHeight, none⟩]
  { st with addresses := base.map (fun r =>
      if r.address == address then
        if isReceived then
          { r with received_count := r.received_count + 1,
                   balance := r.balance + value,
                   total_received := r.total_received + value,
                   last_seen_block := (blockHeight.orElse (fun _ => r.last_seen_block)) }
        else
          { r with sent_count := r.sent_count + 1,
                   balance := r.balance - value,
                   total_sent := r.total_sent + value,
                   last_seen_block := (blockHeight.orElse (fun _ => r.last_seen_block)) }
      else r) }

/-- The transactions-table row `SimpleIndexer.indexTransaction` inserts
(`INSERT OR REPLACE`); `fee` is `tx.fee || null`. -/
def insertTxRow (tx : TxData) (st : SqlState) : SqlState :=
  let row : SqlTxRow := ⟨tx.txid, tx.blockheight, jsOrNullInt tx.fee⟩
  { st with transactions := insertOrReplace (fun r => r.txid == tx.txid) row st.transactions }

/-- Accumulator of the input loop: evolving state and `totalInput`. -/
structure InLoopAcc where
  st : SqlState
  totalInput : Int

/-- Body of the input loop of `SimpleIndexer.indexTransaction` for vin
entry `i`: coinbase inputs get a bare input row; regular inputs look up
the previous output, store an input row carrying its value/address
(JavaScript `prevOutput?.value || null` turns a zero value into null),
mark the previous output spent, and — when the previous output resolved
with a truthy value — accumulate `totalInput` and debit its address. -/
def simpleVinStep (tx : TxData) (i : Nat) (inp : VinData) (acc : InLoopAcc) : InLoopAcc :=
  match inp.coinbase with
  | some _ =>
      let row : SqlInputRow := ⟨tx.txid, i, none, none, none, none⟩
      let inputs := insertOrReplace (fun r => r.txid == tx.txid && r.vout == i) row acc.st.transaction_inputs
      { acc with st := { acc.st with transaction_inputs := inputs } }
  | none =>
      match inp.txid, inp.vout with
      | some ptxid, some pvout =>
          let prevOutput := getPreviousOutput acc.st ptxid pvout
          let row : SqlInputRow := ⟨tx.txid, i, some ptxid, some pvout,
            jsOrNullInt (prevOutput.map (·.value)), prevOutput.bind (·.address)⟩
          let inputs := insertOrReplace (fun r => r.txid == tx.txid && r.vout == i) row acc.st.transaction_inputs
          let st1 := { acc.st with transaction_inputs := inputs }
          let st2 := markOutputAsSpent ptxid pvout tx.txid i st1
          match prevOutput with
          | some prev =>
              if prev.value ≠ 0 then
                let st3 :=
                  match prev.address with
                  | some paddr => updateAddressInfo paddr prev.value false tx.blockheight st2
                  | none => st2
                ⟨st3, acc.totalInput + prev.value⟩
              else ⟨st2, acc.totalInput⟩
          | none => ⟨st2, acc.totalInput⟩
      | _, _ => { acc with st := acc.st }

/-- Accumulator of the output loop: evolving state and `totalOutput`. -/
structure OutLoopAcc where
  st : SqlState
  totalOutput : Int

/-- Body of the output loop of `SimpleIndexer.indexTransaction`: store the
output row (`is_spent = false`), and when an address resolves, add the
UTXO and credit the address. -/
def simpleVoutStep (tx : TxData) (o : VoutData) (acc : OutLoopAcc) : OutLoopAcc :=
  let address := voutAddress o
  let valueSatoshis := voutSats o
  let totalOutput := acc.totalOutput + valueSatoshis
  let row : SqlOutputRow := ⟨tx.txid, o.n, valueSatoshis, address, false, none, none⟩
  let outs := insertOrReplace (fun r => r.txid == tx.txid && r.vout == o.n) row acc.st.transaction_outputs
  let st1 := { acc.st with transaction_outputs := outs }
  match address with
  | some a =>
      let st2 := addUTXO ⟨tx.txid, o.n, a, valueSatoshis, tx.blockheight.getD 0, isCoinbaseTx tx⟩ st1
      ⟨updateAddressInfo a valueSatoshis true tx.blockheight st2, totalOutput⟩
  | none => ⟨st1, totalOutput⟩

/-- `UPDATE transactions SET fee = ? WHERE txid = ?`. -/
def updateFee (txid : String) (fee : Int) (st : SqlState) : SqlState :=
  { st with transactions := st.transactions.map (fun r =>
      if r.txid == txid then { r with fee := some fee } else r) }

/-- `SimpleIndexer.indexTransaction`: insert the transaction row, run the
input loop, run the output loop, then — for a non-coinbase transaction
with `totalInput > 0` — store `fee = totalInput - totalOutput` (with no
sign check). -/
def indexTransaction (tx : TxData) (st : SqlState) : SqlState :=
  let st1 := insertTxRow tx st
  let accIn := (tx.vin.enum).foldl (fun a iv => simpleVinStep tx iv.1 iv.2 a) ⟨st1, 0⟩
  let accOut := tx.vout.foldl (fun a o => simpleVoutStep tx o a) ⟨accIn.st, 0⟩
  if isCoinbaseTx tx = false ∧ accIn.totalInput > 0 then
    updateFee tx.txid (accIn.totalInput - accOut.totalOutput) accOut.st
  else accOut.st

/-- Fallback row of `SimpleIndexer.indexBlock` (used both for the skipped
genesis coinbase and for transactions whose detail fetch fails): basic
transaction info only, `fee = null`. -/
def insertBasicTxRow (txid : String) (b : BlockData) (st : SqlState) : SqlState :=
  let row : SqlTxRow := ⟨txid, some b.height, none⟩
  { st with transactions := insertOrReplace (fun r => r.txid == txid) row st.transactions }

/-- `SimpleIndexer.indexBlock`: `INSERT OR REPLACE` the block row, then for
each txid in order: at height 0, index 0 store only the basic row (the
genesis coinbase cannot be fetched); otherwise fetch the transaction and
index it, falling back to the basic row if the fetch fails. -/
def indexBlock (getTx : String → Except RpcError TxData) (b : BlockData)
    (st : SqlState) : SqlState :=
  let row : SqlBlockRow := ⟨b.hash, b.height⟩
  let st1 := { st with blocks := insertOrReplace (fun r => r.hash == b.hash) row st.blocks }
  (b.tx.enum).foldl (fun s it =>
    if b.height = 0 ∧ it.1 = 0 then insertBasicTxRow it.2 b s
    else
      match getTx it.2 with
      | .ok t =>
          indexTransaction
            { t with blockhash := some b.hash, blockheight := some b.height,
                     blocktime := some b.time } s
      | .error _ => insertBasicTxRow it.2 b s) st1

/-- Result of a `SimpleIndexer.syncBlocks` run: the last committed store
state, the trace of committed store transactions (each the list of heights
indexed inside that one `beginTransaction`/`commit` pair), and whether the
run aborted (a failure rolls the open transaction back and rethrows). -/
structure SyncOutcome where
  state : SqlState
  commits : List (List Nat)
  failed : Bool
  deriving Repr, DecidableEq

/-- The mutation set of one store transaction of `SimpleIndexer.syncBlocks`:
fetch and index every height of the batch; the first failing fetch aborts
the whole batch. -/
def processBatch (getBlock : Nat → Except RpcError BlockData)
    (getTx : String → Except RpcError TxData) (hs : List Nat)
    (st : SqlState) : Except RpcError SqlState :=
  hs.foldlM (fun s h => (getBlock h).map (fun b => indexBlock getTx b s)) st

/-- The batch loop of `SimpleIndexer.syncBlocks`, fuel-based for kernel
reducibility (`fuel` bounds the number of loop entries): each iteration
opens one store transaction covering heights
`height .. min (height + batchSize - 1) toHeight`, commits it on success
and rolls it back and aborts on failure. -/
def syncLoop (getBlock : Nat → Except RpcError BlockData)
    (getTx : String → Except RpcError TxData) (batchSize toHeight : Nat) :
    Nat → Nat → SqlState → List (List Nat) → SyncOutcome
  | 0, _, st, commits => ⟨st, commits, false⟩
  | fuel+1, height, st, commits =>
      if height > toHeight then ⟨st, commits, false⟩
      else
        let endHeight := min (height + batchSize - 1) toHeight
        let hs := List.range' height (endHeight + 1 - height)
        match processBatch getBlock getTx hs st with
        | .ok st1 =>
            syncLoop getBlock getTx batchSize toHeight fuel (height + batchSize) st1
              (commits ++ [hs])
        | .error _ => ⟨st, commits, true⟩

/-- `SimpleIndexer.syncBlocks` (identical in `BitcoinIndexer`): heights
`fromHeight .. toHeight` in batches of `batchSize` per store transaction. -/
def syncBlocksSimple (getBlock : Nat → Except RpcError BlockData)
    (getTx : String → Except RpcError TxData) (batchSize fromHeight toHeight : Nat)
    (st : SqlState) : SyncOutcome :=
  syncLoop getBlock getTx batchSize toHeight (toHeight + 2 - fromHeight) fromHeight st []

/-- The `reorgProtectionBlocks` configuration value
(`REORG_PROTECTION_BLOCKS`, default `'6'`): parsed into config but never
consulted by any storage operation. -/
def reorgProtectionBlocksDefault : Nat := 6

/-! ## `DatabaseService.recalculateAddressBalances` -/

/-- Per-address accumulator of `recalculateAddressBalances` (the JS `Map`
entry). -/
structure AddrStats where
  balance : Int
  totalReceived : Int
  totalSent : Int
  utxoCount : Int
  txCount : Int
  deriving Repr, DecidableEq

/-- Fresh accumulator (all zero), as created on first touch. -/
def emptyStats : AddrStats := ⟨0, 0, 0, 0, 0⟩

/-- `Map.get` on the stats map. -/
def statsGet (m : List (String × AddrStats)) (a : String) : Option AddrStats :=
  (m.find? (fun e => e.1 == a)).map (·.2)

/-- `Map.set` on the stats map (replace existing key, else append). -/
def statsSet (m : List (String × AddrStats)) (a : String) (s : AddrStats) :
    List (String × AddrStats) :=
  if m.any (fun e => e.1 == a) then replaceFirst (fun e => e.1 == a) (a, s) m
  else m ++ [(a, s)]

/-- `recalculateAddressBalances`: reset every address row to zero, then
rebuild the stats map — received/txCount from all utxo rows, sent from
spent rows, balance/utxoCount from unspent rows — and write each entry
back over the matching address rows. -/
def recalculateAddressBalances (st : DbState) : DbState :=
  let allPass := st.utxos.foldl (fun m u =>
    let current := (statsGet m u.address).getD emptyStats
    statsSet m u.address
      { current with totalReceived := current.totalReceived + u.value,
                     txCount := current.txCount + 1 }) []
  let spentPass := (st.utxos.filter (·.is_spent)).foldl (fun m u =>
    match statsGet m u.address with
    | some current =>
        statsSet m u.address { current with totalSent := current.totalSent + u.value }
    | none => m) allPass
  let unspentPass := (st.utxos.filter (fun u => !u.is_spent)).foldl (fun m u =>
    match statsGet m u.address with
    | some current =>
        statsSet m u.address
          { current with balance := current.balance + u.value,
                         utxoCount := current.utxoCount + 1 }
    | none => m) spentPass
  { st with addresses := st.addresses.map (fun r =>
      match statsGet unspentPass r.address with
      | some s =>
          { r with balance := s.balance, total_received := s.totalReceived,
                   total_sent := s.totalSent, utxo_count := s.utxoCount,
                   transaction_count := s.txCount }
      | none =>
          { r with balance := 0, total_received := 0, total_sent := 0,
                   utxo_count := 0, transaction_count := 0 }) }

/-! ## Observables and invariants -/

/-- Stored balance of an address in the TypeORM store (0 when the row is
absent, matching the fresh row `getOrCreateAddress` would create). -/
def balanceOf (st : DbState) (a : String) : Int :=
  ((st.addresses.find? (fun r => r.address == a)).map (·.balance)).getD 0

/-- Stored `total_received` of an address in the TypeORM store. -/
def receivedOf (st : DbState) (a : String) : Int :=
  ((st.addresses.find? (fun r => r.address == a)).map (·.total_received)).getD 0

/-- Stored `total_sent` of an address in the TypeORM store. -/
def sentOf (st : DbState) (a : String) : Int :=
  ((st.addresses.find? (fun r => r.address == a)).map (·.total_sent)).getD 0

/-- Sum of the values of unspent utxo rows owned by an address. -/
def sumUnspentFor (utxos : List UtxoRow) (a : String) : Int :=
  ((utxos.filter (fun u => u.address == a && !u.is_spent)).map (·.value)).sum

/-- The spec's balance invariant: every address balance equals the sum of
the values of the unspent outputs owned by that address. -/
def BalanceInvariant (st : DbState) : Prop :=
  ∀ a, balanceOf st a = sumUnspentFor st.utxos a

/-- The spec's second balance identity on every stored address row. -/
def ReceivedSentInvariant (st : DbState) : Prop :=
  ∀ r ∈ st.addresses, r.total_received - r.total_sent = r.balance

/-- Well-formedness maintained by `saveUTXO`: utxo primary keys are
pairwise distinct. -/
def UtxoKeysNodup (st : DbState) : Prop :=
  (st.utxos.map (fun u => (u.transaction_id, u.output_index))).Nodup

/-- Stored balance of an address in the SQLite store (0 when absent). -/
def sqlBalanceOf (st : SqlState) (a : String) : Int :=
  ((st.addresses.find? (fun r => r.address == a)).map (·.balance)).getD 0

/-- Stored fee of a transaction in the SQLite store (`none` when the row
is absent or its fee column is null). -/
def lookupFee (st : SqlState) (txid : String) : Option Int :=
  (st.transactions.find? (fun r => r.txid == txid)).bind (·.fee)

/-- Point lookup in the SQLite utxo set. -/
def sqlUtxoAt (st : SqlState) (txid : String) (vout : Nat) : Option SqlUtxoRow :=
  st.utxos.find? (fun u => u.txid == txid && u.vout == vout)

/-- Identity view of a SQLite output row: everything except the
spent-related fields. -/
def outRowView (r : SqlOutputRow) : String × Nat × Int × Option String :=
  (r.txid, r.vout, r.value, r.address)

/-- Identity view of a TypeORM utxo row: everything except the
spent-related fields. -/
def utxoRowView (u : UtxoRow) : String × Nat × String × Int × Nat :=
  (u.transaction_id, u.output_index, u.address, u.value, u.block_height)

/-! ## Concrete fixtures for witnesses and counterexamples -/

/-- A coinbase transaction paying 50 BTC (the binary64 literal `50.0`) to
address `addrX`. -/
def cbTxData : TxData :=
  { txid := "cb1"
    hash := "cb1"
    vin := [⟨none, none, 4294967295, some "03abc101"⟩]
    vout := [⟨mkRat 50 1, 0, ⟨"76a914spk88ac", some "addrX", []⟩⟩]
    blockhash := none
    blockheight := none
    blocktime := none
    fee := none }

/-- The TypeORM store after processing `cbTxData` once at height 1. -/
def replayOnce : DbState := processTransactionData false cbTxData 1 0 initialDb

/-- The TypeORM store after processing the identical `cbTxData` a second
time (transaction-level replay over already-committed rows). -/
def replayTwice : DbState := processTransactionData false cbTxData 1 0 replayOnce

/-- A chain-node surface for height 0 whose `getTransaction` fails with
code `-5` (the genesis coinbase cannot be fetched). -/
def genesisRpc : ChainRpc :=
  ⟨fun _ => "000000000019d6689c085ae165831e934ff763ae46a2a6c172b3f1b60a8ce26f",
   fun h => ⟨h, 0, 1231006505, none,
     ["4a5e1e4baab89f3a32518a88c31bc87f618f76673e2cc77ab2127b7afdeda33b"]⟩,
   fun _ => .error ⟨-5⟩⟩

/-- The TypeORM store after syncing height 0 against `genesisRpc`. -/
def genesisState : DbState := syncBlocksAdapter false genesisRpc 0 0 initialDb

/-- The genesis recipient address of the synthetic descriptor. -/
def genesisAddress : String := "1A1zP1eP5QGefi2DMPTfTL5SLmv7DivfNa"

/-- A non-coinbase transaction whose single input references an output
(`missing`, 0) absent from the store. -/
def orphanSpendTx : TxData :=
  { txid := "bad1"
    hash := "bad1"
    vin := [⟨some "missing", some 0, 4294967294, none⟩]
    vout := [⟨mkRat 1 1, 0, ⟨"spkbad", some "addrY", []⟩⟩]
    blockhash := none
    blockheight := none
    blocktime := none
    fee := none }

/-- A coinbase transaction paying 50 BTC to `addrZ`, processed after
`orphanSpendTx` in the same block. -/
def laterTx : TxData :=
  { txid := "good1"
    hash := "good1"
    vin := [⟨none, none, 4294967295, some "03abc102"⟩]
    vout := [⟨mkRat 50 1, 0, ⟨"spkgood", some "addrZ", []⟩⟩]
    blockhash := none
    blockheight := none
    blocktime := none
    fee := none }

/-- A chain-node surface serving a height-1 block containing
`orphanSpendTx` followed by `laterTx`. -/
def mixedRpc : ChainRpc :=
  ⟨fun _ => "blockhash1",
   fun _ => ⟨"blockhash1", 1, 1231469665, none, ["bad1", "good1"]⟩,
   fun txid => if txid == "bad1" then .ok orphanSpendTx else .ok laterTx⟩

/-- The TypeORM store after syncing height 1 against `mixedRpc`. -/
def mixedState : DbState := syncBlocksAdapter false mixedRpc 1 1 initialDb

/-- A height-1 block containing only `cbTxData`. -/
def cbBlock : BlockData := ⟨"b1", 1, 1231469665, none, ["cb1"]⟩

/-- Transaction fetcher serving `cbTxData`. -/
def cbGetTx : String → Except RpcError TxData := fun _ => .ok cbTxData

/-- The SQLite store after indexing `cbBlock` once. -/
def sqlOnce : SqlState := indexBlock cbGetTx cbBlock initialSql

/-- The SQLite store after indexing the identical `cbBlock` a second time
(block replay over an already committed store). -/
def sqlTwice : SqlState := indexBlock cbGetTx cbBlock sqlOnce

/-- A block fetcher serving trivial empty blocks at heights 1 and 2. -/
def twoBlocksRpc : Nat → Except RpcError BlockData :=
  fun h => .ok ⟨if h == 1 then "b1" else "b2", h, 0, none, []⟩

/-- Outcome of `syncBlocks` over heights 1..2 with `batchSize = 2`. -/
def batchOutcome : SyncOutcome :=
  syncBlocksSimple twoBlocksRpc (fun _ => .error ⟨-5⟩) 2 1 2 initialSql

/-- A SQLite store holding two confirmed outputs: (`prev1`, 0) worth 5
satoshis and (`prev2`, 0) worth 50 satoshis, both owned by `addrX`. -/
def feeBaseSql : SqlState :=
  { initialSql with transaction_outputs :=
      [⟨"prev1", 0, 5, some "addrX", false, none, none⟩,
       ⟨"prev2", 0, 50, some "addrX", false, none, none⟩] }

/-- A non-coinbase transaction spending (`prev1`, 0) (5 satoshis in) and
creating one output of 0.0000001 BTC (10 satoshis out): its computed fee
is negative. -/
def overdrawTx : TxData :=
  { txid := "sp1"
    hash := "sp1"
    vin := [⟨some "prev1", some 0, 4294967294, none⟩]
    vout := [⟨roundDouble (mkRat 1 10000000), 0, ⟨"spk1", some "addrY", []⟩⟩]
    blockhash := none
    blockheight := some 2
    blocktime := none
    fee := none }

/-- A non-coinbase transaction spending (`prev2`, 0) (50 satoshis in) and
creating one output of 10 satoshis: its computed fee is 40. -/
def normalSpendTx : TxData :=
  { txid := "sp2"
    hash := "sp2"
    vin := [⟨some "prev2", some 0, 4294967294, none⟩]
    vout := [⟨roundDouble (mkRat 1 10000000), 0, ⟨"spk2", some "addrY", []⟩⟩]
    blockhash := none
    blockheight := some 2
    blocktime := none
    fee := none }

/-- A TypeORM store holding address `addrX` with balance 50 (received 50,
sent 0). -/
def addrBal50 : DbState :=
  { initialDb with addresses := [⟨"addrX", 50, 50, 0, 1, 1⟩] }

/-- A SQLite store holding the unspent output (`aa`, 0) worth 5000000000
satoshis at height 9 in both `transaction_outputs` and `utxos`. -/
def utxoSql9 : SqlState :=
  { initialSql with
      transaction_outputs := [⟨"aa", 0, 5000000000, some "addrX", false, none, none⟩]
      utxos := [⟨"aa", 0, "addrX", 5000000000, 9, true⟩] }

/-- The binary64 double for the JSON literal `1.1` (BTC). -/
def btc1p1 : ℚ := roundDouble (mkRat 11 10)

/-- A vout of 1.1 BTC to `addrW`. -/
def c8Vout : VoutData := ⟨btc1p1, 0, ⟨"spk8", some "addrW", []⟩⟩

/-- The TypeORM store after `saveTransactionOutput` persists `c8Vout`. -/
def c8State : DbState := saveTransactionOutput initialDb "t8" c8Vout


/-- View of every row set of the TypeORM store (everything except the sync
cursor). -/
def dbRowsView (st : DbState) :
    List BlockRow × List TxRow × List InputRow × List OutputRow × List UtxoRow
      × List AddressRow :=
  (st.blocks, st.transactions, st.inputs, st.outputs, st.utxos, st.addresses)

/-- View of the TypeORM store without its address table. -/
def dbCoreView (st : DbState) :
    List BlockRow × List TxRow × List InputRow × List OutputRow × List UtxoRow × Int :=
  (st.blocks, st.transactions, st.inputs, st.outputs, st.utxos, st.lastProcessedHeight)

/-- The `(value, address)` pair `getPreviousOutput` hands to the input loop. -/
def prevView (st : SqlState) (ptxid : String) (pvout : Nat) : Option (Int × Option String) :=
  (getPreviousOutput st ptxid pvout).map (fun r => (r.value, r.address))

/-- The contribution of one vin entry to `totalInput` in
`SimpleIndexer.indexTransaction`: the referenced previous output's value
when the input is non-coinbase, carries `txid`/`vout`, and resolves to an
output row with truthy value; 0 otherwise. -/
def vinContribution (st : SqlState) (inp : VinData) : Int :=
  match inp.coinbase with
  | some _ => 0
  | none =>
      match inp.txid, inp.vout with
      | some ptxid, some pvout =>
          match prevView st ptxid pvout with
          | some pr => if pr.1 ≠ 0 then pr.1 else 0
          | none => 0
      | _, _ => 0

/-- The `totalInput` accumulated over a transaction's inputs against a
given store. -/
def totalInputSpec (st : SqlState) (tx : TxData) : Int :=
  (tx.vin.map (vinContribution st)).sum

/-- The `totalOutput` accumulated over a transaction's outputs. -/
def totalOutputSpec (tx : TxData) : Int :=
  (tx.vout.map voutSats).sum

/-- Sequential composition of committed batches: the store state visible
after a sync run is exactly the fold of its committed store transactions. -/
def processCommits (getBlock : Nat → Except RpcError BlockData)
    (getTx : String → Except RpcError TxData) (cs : List (List Nat))
    (st : SqlState) : Except RpcError SqlState :=
  cs.foldlM (fun s hs => processBatch getBlock getTx hs s) st

/-- A TypeORM store already holding a block row at height 0. -/
def oneBlockDb : DbState :=
  { initialDb with blocks := [⟨"g0", 0⟩] }

/-- A vout of 50 BTC to `addrX` (used by witnesses). -/
def vout50X : VoutData := ⟨mkRat 50 1, 0, ⟨"spkw", some "addrX", []⟩⟩

/-! ## Helper lemmas on list tables -/

theorem find?_replaceFirst_of_pos {α : Type} (p : α → Bool) (x : α)
    (l : List α) (hx : p x = true) :
    (replaceFirst p x l).find? p = if (l.find? p).isSome then some x else l.find? p := by
  induction l with
  | nil => simp [replaceFirst]
  | cons a as ih =>
      by_cases ha : p a = true
      · simp [replaceFirst, ha, List.find?_cons, hx]
      · have ha' : p a = false := by simpa using ha
        simp [replaceFirst, ha', List.find?_cons, ih]

theorem find?_replaceFirst_of_disjoint {α : Type} (p q : α → Bool) (x : α)
    (l : List α) (hpq : ∀ y, q y = true → p y = false) (hx : p x = false) :
    (replaceFirst q x l).find? p = l.find? p := by
  induction l with
  | nil => simp [replaceFirst]
  | cons a as ih =>
      by_cases ha : q a = true
      · simp [replaceFirst, ha, List.find?_cons, hx, hpq a ha]
      · have ha' : q a = false := by simpa using ha
        simp [replaceFirst, ha', List.find?_cons, ih]

theorem find?_insertOrReplace_self {α : Type} (p : α → Bool) (x : α)
    (l : List α) (hx : p x = true) :
    (insertOrReplace p x l).find? p = some x := by
  by_cases h : l.any p
  · have hsome : (l.find? p).isSome := by
      rcases List.any_eq_true.mp h with ⟨a, ha, hpa⟩
      exact List.find?_isSome.mpr ⟨a, ha, hpa⟩
    simp [insertOrReplace, h, find?_replaceFirst_of_pos p x l hx, hsome]
  · have hnone : l.find? p = none := by
      apply List.find?_eq_none.mpr
      intro a ha hpa
      exact absurd (List.any_eq_true.mpr ⟨a, ha, hpa⟩) (by simpa using h)
    simp [insertOrReplace, h, List.find?_append, hnone, hx]

/-! ## Claim C8 -/

/-- Claim C8 (code evaluated at the failing input): `DatabaseService.saveTransactionOutput`
stores `(outputData.value * 100000000).toString()` with no rounding, so for
an output of 1.1 BTC the persisted value is the non-integer binary64
product `7381975040000001 / 2^26` (printed `110000000.00000001`), while
the `Math.round` conversion used by every other indexing path yields the
integer `110000000` from the same double. -/
theorem C8_saveTransactionOutput_nonInteger_value :
    ((c8State.outputs.find? (fun r => r.transaction_id == "t8" && r.output_index == 0)).map
        (·.value)) = some (mkRat 7381975040000001 67108864)
    ∧ ratIsInt (mkRat 7381975040000001 67108864) = false
    ∧ voutSats c8Vout = 110000000 := by
  refine ⟨by decide, by decide, by decide⟩

/-! ## Claim C9 -/

/-- Claim C9: syncing height 0 when the adapter cannot supply the genesis
coinbase (`getTransaction` fails with code -5) substitutes the synthetic
descriptor via `processGenesisTransaction`; afterwards the genesis address
has balance 5,000,000,000 and exactly one unspent stored output. -/
theorem C9_genesis_synthetic_coinbase :
    balanceOf genesisState genesisAddress = 5000000000
    ∧ (genesisState.utxos.filter
        (fun u => u.address == genesisAddress && !u.is_spent)).length = 1
    ∧ receivedOf genesisState genesisAddress = 5000000000 := by
  refine ⟨by decide, by decide, by decide⟩

/-! ## Counterexamples for the corrected claims -/

/-- Counterexample to claim C1: replay does not preserve the balance
invariant.  After processing `cbTxData` once the invariant holds at
`addrX` (balance 5,000,000,000 = unspent sum); replaying the identical
transaction skips the existing Transaction/Output/UTXO rows but applies
`updateAddressBalance` again, leaving balance 10,000,000,000 against an
unspent-output sum of 5,000,000,000. -/
theorem C1_replay_breaks_invariant :
    balanceOf replayOnce "addrX" = sumUnspentFor replayOnce.utxos "addrX"
    ∧ balanceOf replayTwice "addrX" = 10000000000
    ∧ sumUnspentFor replayTwice.utxos "addrX" = 5000000000
    ∧ balanceOf replayTwice "addrX" ≠ sumUnspentFor replayTwice.utxos "addrX" := by
  refine ⟨by decide, by decide, by decide, by decide⟩

/-- Counterexample to claim C2: replaying a block through the SQLite sync
path (`SimpleIndexer.indexBlock`, whose balance statements
`BitcoinIndexer.updateAddressInfo` shares verbatim) re-applies the
address-balance delta: the second indexing of `cbBlock` doubles balance,
total_received and received_count although all row sets are unchanged. -/
theorem C2_sqlite_replay_doubles_balance :
    sqlBalanceOf sqlOnce "addrX" = 5000000000
    ∧ sqlBalanceOf sqlTwice "addrX" = 10000000000
    ∧ sqlBalanceOf sqlTwice "addrX" ≠ sqlBalanceOf sqlOnce "addrX"
    ∧ sqlTwice.transactions = sqlOnce.transactions
    ∧ sqlTwice.transaction_outputs = sqlOnce.transaction_outputs
    ∧ sqlTwice.utxos = sqlOnce.utxos := by
  refine ⟨by decide, by decide, by decide, by decide, by decide, by decide⟩

/-- Counterexample to claim C3: a non-coinbase input whose referenced
output is absent is silently skipped, not a fatal error.  Syncing a block
whose first transaction spends the absent output (`missing`, 0) completes
the block: no debit happens and no spent-mark is written, the offending
input row is still stored, the following transaction is fully indexed
(address `addrZ` credited), and the cursor advances to the block height. -/
theorem C3_unresolved_input_skipped_not_fatal :
    mixedState.lastProcessedHeight = 1
    ∧ (mixedState.transactions.find? (fun r => r.txid == "good1")).isSome
    ∧ balanceOf mixedState "addrZ" = 5000000000
    ∧ (mixedState.inputs.find? (fun r => r.transaction_id == "bad1")).isSome
    ∧ balanceOf mixedState "addrY" = 100000000
    ∧ (mixedState.utxos.filter (·.is_spent)).length = 0 := by
  refine ⟨by decide, by decide, by decide, by decide, by decide, by decide⟩

/-- Counterexample to claim C4: with `batchSize = 2`, syncing heights 1..2
commits both blocks inside one single store transaction — the commit
trace is `[[1, 2]]`, not one transaction per height. -/
theorem C4_multi_block_transaction :
    batchOutcome.commits = [[1, 2]]
    ∧ batchOutcome.failed = false
    ∧ ∃ c ∈ batchOutcome.commits, 2 ≤ c.length := by
  refine ⟨by decide, by decide, ⟨[1, 2], by decide, by decide⟩⟩

/-- Counterexample to claim C5: a negative computed fee is persisted, not
rejected.  `overdrawTx` spends a 5-satoshi output and creates a
10-satoshi output; the stored fee is `-5` and indexing completes
normally. -/
theorem C5_negative_fee_stored :
    lookupFee (indexTransaction overdrawTx feeBaseSql) "sp1" = some (-5)
    ∧ ((-5 : Int) < 0) := by
  refine ⟨by decide, by decide⟩

/-- Counterexample to claim C6: `updateAddressBalance` applies a debit of
100 to an address whose tracked balance is 50, storing the negative
balance `-50` and returning normally (its catch block would swallow even
an internal error). -/
theorem C6_overdebit_goes_negative :
    balanceOf addrBal50 "addrX" = 50
    ∧ balanceOf (updateAddressBalance false "addrX" 100 false addrBal50) "addrX" = -50
    ∧ balanceOf (updateAddressBalance false "addrX" 100 false addrBal50) "addrX" < 0 := by
  refine ⟨by decide, by decide, by decide⟩

/-- Counterexample to claim C7: spending the output (`aa`, 0) at height 9 —
zero confirmations deep, well inside the default reorg-protection window
of 6 blocks — immediately deletes its row from the `utxos` table
(`markOutputAsSpent` runs `DELETE FROM utxos` unconditionally; no code
path consults `reorgProtectionBlocks`). -/
theorem C7_utxo_row_deleted_inside_window :
    (sqlUtxoAt utxoSql9 "aa" 0).isSome
    ∧ sqlUtxoAt (markOutputAsSpent "aa" 0 "bb" 0 utxoSql9) "aa" 0 = none
    ∧ 9 - 9 ≤ reorgProtectionBlocksDefault := by
  refine ⟨by decide, by decide, by decide⟩

/-! ## Address lookup after `updateAddressBalance` -/

theorem applyBalanceChange_address (row : AddressRow) (c : Int) (r : Bool) :
    (applyBalanceChange row c r).address = row.address := by
  unfold applyBalanceChange
  by_cases hr : r <;> simp [hr]

theorem find?_updateAddressBalance (a : String) (c : Int) (r : Bool) (st : DbState) (x : String) :
    (updateAddressBalance false a c r st).addresses.find? (fun row => row.address == x)
      = if x = a then
          some (applyBalanceChange
            ((st.addresses.find? (fun row => row.address == a)).getD (newAddressRow a)) c r)
        else st.addresses.find? (fun row => row.address == x) := by
  by_cases hx : x = a
  · subst hx
    rw [if_pos rfl]
    cases hfind : st.addresses.find? (fun row => row.address == x) with
    | some row =>
        have hrow : (row.address == x) = true := by simpa using List.find?_some hfind
        have hx2 : ((applyBalanceChange row c r).address == x) = true := by
          rw [applyBalanceChange_address]; exact hrow
        have hlem := find?_replaceFirst_of_pos (fun row => row.address == x)
          (applyBalanceChange row c r) st.addresses hx2
        simp [updateAddressBalance, hfind, hlem]
    | none =>
        simp [updateAddressBalance, hfind, List.find?_append, applyBalanceChange_address,
          newAddressRow]
  · rw [if_neg hx]
    cases hfind : st.addresses.find? (fun row => row.address == a) with
    | some row =>
        have hrow : (row.address == a) = true := by simpa using List.find?_some hfind
        have hdisj : ∀ y : AddressRow, (y.address == a) = true → (y.address == x) = false := by
          intro y hy
          have hya : y.address = a := by simpa using hy
          simp [hya]
          exact fun hcontra => hx hcontra.symm
        have hxapp : ((applyBalanceChange row c r).address == x) = false := by
          apply hdisj
          rw [applyBalanceChange_address]; exact hrow
        have hlem := find?_replaceFirst_of_disjoint (fun row => row.address == x)
          (fun row => row.address == a) (applyBalanceChange row c r) st.addresses hdisj hxapp
        simp [updateAddressBalance, hfind, hlem]
    | none =>
        have hxapp : ((applyBalanceChange (newAddressRow a) c r).address == x) = false := by
          rw [applyBalanceChange_address]
          simp [newAddressRow]
          exact fun hcontra => hx hcontra.symm
        simp [updateAddressBalance, hfind, List.find?_append, hxapp]

/-! ## Claim C6 -/

/-- Claim C6 (amended): `updateAddressBalance` applies a debit
unconditionally — the stored balance becomes `currentBalance - amount`
(with no check against the tracked balance, so it may go negative) and
`total_sent` increases by the amount, while `total_received` is untouched;
the call returns normally in every case. -/
theorem C6_amended_unconditional_debit (st : DbState) (a : String) (c : Int) :
    balanceOf (updateAddressBalance false a c false st) a = balanceOf st a - c
    ∧ sentOf (updateAddressBalance false a c false st) a = sentOf st a + c
    ∧ receivedOf (updateAddressBalance false a c false st) a = receivedOf st a := by
  have h := find?_updateAddressBalance a c false st a
  rw [if_pos rfl] at h
  unfold balanceOf sentOf receivedOf
  rw [h]
  cases hf : st.addresses.find? (fun row => row.address == a) with
  | some row => simp [applyBalanceChange]
  | none => simp [applyBalanceChange, newAddressRow]

/-! ## Claim C7 -/

theorem markOutputAsSpent_outputs_view (txid : String) (vout : Nat) (stx : String)
    (svout : Nat) (st : SqlState) :
    (markOutputAsSpent txid vout stx svout st).transaction_outputs.map outRowView
      = st.transaction_outputs.map outRowView := by
  unfold markOutputAsSpent
  rw [List.map_map]
  apply List.map_congr_left
  intro r _
  simp only [Function.comp_apply]
  split <;> rfl

theorem spendUTXO_utxos_view (st : DbState) (t : String) (v : Nat) (sbt : String)
    (sbi : Nat) (sah : Nat) :
    (spendUTXO st t v sbt sbi sah).utxos.map utxoRowView = st.utxos.map utxoRowView := by
  unfold spendUTXO
  rw [List.map_map]
  apply List.map_congr_left
  intro u _
  simp only [Function.comp_apply]
  split <;> rfl

/-- Claim C7 (amended): spending keeps the `transaction_outputs` row
(`markOutputAsSpent` changes only its spent-related fields — key, value
and address are preserved) but deletes the matching `utxos` row
immediately and unconditionally: no operation consults
`reorgProtectionBlocks` before removal.  In the TypeORM path, `spendUTXO`
only sets spent fields and removes nothing. -/
theorem C7_amended_tombstone_and_immediate_delete :
    (∀ (txid : String) (vout : Nat) (stx : String) (svout : Nat) (st : SqlState),
        (markOutputAsSpent txid vout stx svout st).transaction_outputs.map outRowView
          = st.transaction_outputs.map outRowView
        ∧ (markOutputAsSpent txid vout stx svout st).utxos
          = st.utxos.filter (fun u => !(u.txid == txid && u.vout == vout)))
    ∧ (∀ (st : DbState) (t : String) (v : Nat) (sbt : String) (sbi sah : Nat),
        (spendUTXO st t v sbt sbi sah).utxos.map utxoRowView = st.utxos.map utxoRowView) :=
  ⟨fun txid vout stx svout st =>
      ⟨markOutputAsSpent_outputs_view txid vout stx svout st, rfl⟩,
   fun st t v sbt sbi sah => spendUTXO_utxos_view st t v sbt sbi sah⟩

/-! ## Claim C3 -/

/-- Claim C3 (amended): a non-coinbase input whose referenced output is
absent from the store (or already marked spent) is silently skipped by
`processInputSpending` — the store is returned unchanged, no error is
raised, and block processing continues (`C3_unresolved_input_skipped_not_fatal`
shows the remaining transactions of the block are still indexed and the
cursor still advances). -/
theorem C3_amended_silent_skip (fail : Bool) (ptxid : String) (pvout : Nat)
    (stxid : String) (h : Nat) (st : DbState)
    (habs : (getUTXOByTxidAndIndex st ptxid pvout).all (·.is_spent) = true) :
    processInputSpending fail ptxid pvout stxid h st = st := by
  unfold processInputSpending
  cases hu : getUTXOByTxidAndIndex st ptxid pvout with
  | none => rfl
  | some u =>
      rw [hu] at habs
      simp only [Option.all_some] at habs
      simp [habs]

/-- Witness for `C3_amended_silent_skip` at a concrete input. -/
theorem C3_amended_silent_skip_witness :
    ((getUTXOByTxidAndIndex initialDb "missing" 0).all (·.is_spent) = true)
    ∧ processInputSpending false "missing" 0 "bad1" 1 initialDb = initialDb :=
  ⟨by decide, C3_amended_silent_skip false "missing" 0 "bad1" 1 initialDb (by decide)⟩

/-! ## Claim C2 -/

theorem syncStep_existing (fail : Bool) (rpc : ChainRpc) (h : Nat) (st : DbState)
    (hex : (getBlockByHeight st h).isSome = true) :
    syncStep fail rpc h st = setLastProcessedHeight st h := by
  unfold syncStep
  cases hb : getBlockByHeight st h with
  | none => rw [hb] at hex; simp at hex
  | some b => simp

theorem syncFold_skip (fail : Bool) (rpc : ChainRpc) : ∀ (hs : List Nat) (st : DbState),
    (∀ h ∈ hs, (getBlockByHeight st h).isSome = true) →
    dbRowsView (hs.foldl (fun s h => syncStep fail rpc h s) st) = dbRowsView st := by
  intro hs
  induction hs with
  | nil => intro st _; rfl
  | cons h t ih =>
      intro st hall
      have hex := hall h (by simp)
      have hrest : ∀ h2 ∈ t, (getBlockByHeight (setLastProcessedHeight st h) h2).isSome = true :=
        fun h2 hm => hall h2 (by simp [hm])
      calc dbRowsView ((h :: t).foldl (fun s x => syncStep fail rpc x s) st)
          = dbRowsView (t.foldl (fun s x => syncStep fail rpc x s)
              (setLastProcessedHeight st h)) := by
            rw [List.foldl_cons, syncStep_existing fail rpc h st hex]
        _ = dbRowsView (setLastProcessedHeight st h) := ih _ hrest
        _ = dbRowsView st := rfl

/-- Claim C2 (amended): replay through `TypeORMIndexerAdapter.syncBlocks`
is idempotent because every height whose block row already exists is
skipped wholesale — over a store already holding all blocks of the range,
a re-run leaves every row set (blocks, transactions, inputs, outputs,
utxos, addresses) unchanged.  (Replaying a block through the SQLite
`indexBlock` path is not idempotent: see
`C2_sqlite_replay_doubles_balance`.) -/
theorem C2_amended_committed_blocks_skipped (fail : Bool) (rpc : ChainRpc)
    (fromHeight toHeight : Nat) (st : DbState)
    (hall : ∀ h ∈ List.range' fromHeight (toHeight + 1 - fromHeight),
      (getBlockByHeight st h).isSome = true) :
    dbRowsView (syncBlocksAdapter fail rpc fromHeight toHeight st) = dbRowsView st :=
  syncFold_skip fail rpc _ st hall

/-- Witness for `C2_amended_committed_blocks_skipped` at a concrete store
already holding the height-0 block. -/
theorem C2_amended_committed_blocks_skipped_witness :
    (∀ h ∈ List.range' 0 (0 + 1 - 0), (getBlockByHeight oneBlockDb h).isSome = true)
    ∧ dbRowsView (syncBlocksAdapter false genesisRpc 0 0 oneBlockDb) = dbRowsView oneBlockDb :=
  ⟨by decide, C2_amended_committed_blocks_skipped false genesisRpc 0 0 oneBlockDb (by decide)⟩

/-! ## Claim C10: the address table is the only thing a swallowed
`updateAddressBalance` failure changes -/

theorem set_addresses_self (s : DbState) : { s with addresses := s.addresses } = s := rfl

theorem saveTransaction_addresses (s : DbState) (tx : TxData) (bh : Option Nat) :
    (saveTransaction s tx bh).addresses = s.addresses := by
  unfold saveTransaction
  by_cases h : (s.transactions.find? (fun r => r.txid == tx.txid)).isSome <;> simp [h]

theorem saveTransaction_addr_comm (s : DbState) (A : List AddressRow) (tx : TxData)
    (bh : Option Nat) :
    saveTransaction { s with addresses := A } tx bh
      = { saveTransaction s tx bh with addresses := A } := by
  unfold saveTransaction
  by_cases h : (s.transactions.find? (fun r => r.txid == tx.txid)).isSome <;> simp [h]

theorem saveTransactionInput_addr_comm (s : DbState) (A : List AddressRow) (txid : String)
    (inp : VinData) :
    saveTransactionInput { s with addresses := A } txid inp
      = { saveTransactionInput s txid inp with addresses := A } := by
  unfold saveTransactionInput
  by_cases h : (s.inputs.find?
      (fun r => r.transaction_id == txid && r.input_index == 0)).isSome <;> simp [h]

theorem saveTransactionOutput_addr_comm (s : DbState) (A : List AddressRow) (txid : String)
    (o : VoutData) :
    saveTransactionOutput { s with addresses := A } txid o
      = { saveTransactionOutput s txid o with addresses := A } := by
  unfold saveTransactionOutput
  by_cases h : (s.outputs.find?
      (fun r => r.transaction_id == txid && r.output_index == o.n)).isSome <;> simp [h]

theorem saveUTXO_addr_comm (s : DbState) (A : List AddressRow) (txid : String)
    (outputIndex : Nat) (addressStr : String) (value : Int) (bh bt : Nat) :
    saveUTXO { s with addresses := A } txid outputIndex addressStr value bh bt
      = { saveUTXO s txid outputIndex addressStr value bh bt with addresses := A } := by
  unfold saveUTXO
  by_cases h : (s.utxos.find?
      (fun u => u.transaction_id == txid && u.output_index == outputIndex)).isSome <;> simp [h]

theorem spendUTXO_addr_comm (s : DbState) (A : List AddressRow) (txid : String)
    (outputIndex : Nat) (sbt : String) (sbi sah : Nat) :
    spendUTXO { s with addresses := A } txid outputIndex sbt sbi sah
      = { spendUTXO s txid outputIndex sbt sbi sah with addresses := A } := rfl

theorem updateAddressBalance_failed (a : String) (c : Int) (r : Bool) (s : DbState) :
    updateAddressBalance true a c r s = s := rfl

theorem updateAddressBalance_core (fail : Bool) (a : String) (c : Int) (r : Bool) (s : DbState) :
    updateAddressBalance fail a c r s
      = { s with addresses := (updateAddressBalance fail a c r s).addresses } := by
  unfold updateAddressBalance
  by_cases hf : fail = true
  · simp [hf]
  · simp only [hf, if_false]
    cases s.addresses.find? (fun row => row.address == a) <;> rfl

theorem processInputSpending_addr_split (ptx : String) (pv : Nat) (stx : String) (bh : Nat)
    (s : DbState) (A : List AddressRow) :
    processInputSpending true ptx pv stx bh { s with addresses := A }
      = { processInputSpending false ptx pv stx bh s with addresses := A } := by
  unfold processInputSpending
  have hu : getUTXOByTxidAndIndex { s with addresses := A } ptx pv
      = getUTXOByTxidAndIndex s ptx pv := rfl
  rw [hu]
  cases hfind : getUTXOByTxidAndIndex s ptx pv with
  | none => rfl
  | some u =>
      by_cases hs : u.is_spent = true
      · simp [hs]
      · simp only [hs, if_false]
        rw [spendUTXO_addr_comm, updateAddressBalance_failed,
          updateAddressBalance_core false u.address u.value false
            (spendUTXO s ptx pv stx 0 bh)]
        simp

theorem processVinStep_addr_split (txid : String) (bh : Nat) (inp : VinData)
    (s : DbState) (A : List AddressRow) :
    processVinStep true txid bh inp { s with addresses := A }
      = { processVinStep false txid bh inp s with addresses := A } := by
  unfold processVinStep
  rw [saveTransactionInput_addr_comm]
  cases inp.txid with
  | none => cases inp.vout <;> rfl
  | some ptx =>
      cases inp.vout with
      | none => rfl
      | some pv => exact processInputSpending_addr_split ptx pv txid bh _ A

theorem processOutputVout_addr_split (txid : String) (bh bt : Nat) (o : VoutData)
    (s : DbState) (A : List AddressRow) :
    processOutputVout true txid bh bt o { s with addresses := A }
      = { processOutputVout false txid bh bt o s with addresses := A } := by
  unfold processOutputVout
  cases voutAddress o with
  | none =>
      dsimp only
      rw [saveTransactionOutput_addr_comm]
  | some addr =>
      dsimp only
      rw [saveTransactionOutput_addr_comm, updateAddressBalance_failed, saveUTXO_addr_comm,
        updateAddressBalance_core false addr (voutSats o) true
          (saveTransactionOutput s txid o),
        saveUTXO_addr_comm (saveTransactionOutput s txid o)
          ((updateAddressBalance false addr (voutSats o) true
            (saveTransactionOutput s txid o)).addresses) txid o.n addr (voutSats o) bh bt]

theorem vinFold_addr_split (txid : String) (bh : Nat) :
    ∀ (l : List VinData) (s : DbState) (A : List AddressRow),
    l.foldl (fun t inp => processVinStep true txid bh inp t) { s with addresses := A }
      = { l.foldl (fun t inp => processVinStep false txid bh inp t) s with addresses := A } := by
  intro l
  induction l with
  | nil => intro s A; rfl
  | cons x xs ih =>
      intro s A
      simp only [List.foldl_cons]
      rw [processVinStep_addr_split]
      exact ih (processVinStep false txid bh x s) A

theorem voutFold_addr_split (txid : String) (bh bt : Nat) :
    ∀ (l : List VoutData) (s : DbState) (A : List AddressRow),
    l.foldl (fun t o => processOutputVout true txid bh bt o t) { s with addresses := A }
      = { l.foldl (fun t o => processOutputVout false txid bh bt o t) s with addresses := A } := by
  intro l
  induction l with
  | nil => intro s A; rfl
  | cons x xs ih =>
      intro s A
      simp only [List.foldl_cons]
      rw [processOutputVout_addr_split]
      exact ih (processOutputVout false txid bh bt x s) A

/-- Claim C10: every call to `updateAddressBalance` returns without
propagating an error — a failed inner storage transaction is swallowed and
leaves the whole store unchanged — and a block-processing run in which the
balance updates fail differs from a normal run only in the address table,
which keeps its pre-run rows while every other mutation of the
transaction still proceeds. -/
theorem C10_updateAddressBalance_swallows_errors :
    (∀ (a : String) (c : Int) (r : Bool) (s : DbState),
        updateAddressBalance true a c r s = s)
    ∧ ∀ (tx : TxData) (bh bt : Nat) (s : DbState),
        processTransactionData true tx bh bt s
          = { processTransactionData false tx bh bt s with addresses := s.addresses } := by
  refine ⟨fun a c r s => rfl, fun tx bh bt s => ?_⟩
  unfold processTransactionData
  have hXA : saveTransaction s tx (some bh)
      = { saveTransaction s tx (some bh) with addresses := s.addresses } := by
    rw [← saveTransaction_addresses s tx (some bh)]
  calc tx.vout.foldl (fun t o => processOutputVout true tx.txid bh bt o t)
        (tx.vin.foldl (fun t inp => processVinStep true tx.txid bh inp t)
          (saveTransaction s tx (some bh)))
      = tx.vout.foldl (fun t o => processOutputVout true tx.txid bh bt o t)
          (tx.vin.foldl (fun t inp => processVinStep true tx.txid bh inp t)
            { saveTransaction s tx (some bh) with addresses := s.addresses }) := by
        rw [← hXA]
    _ = tx.vout.foldl (fun t o => processOutputVout true tx.txid bh bt o t)
          { tx.vin.foldl (fun t inp => processVinStep false tx.txid bh inp t)
              (saveTransaction s tx (some bh)) with addresses := s.addresses } := by
        rw [vinFold_addr_split]
    _ = { tx.vout.foldl (fun t o => processOutputVout false tx.txid bh bt o t)
            (tx.vin.foldl (fun t inp => processVinStep false tx.txid bh inp t)
              (saveTransaction s tx (some bh))) with addresses := s.addresses } := by
        rw [voutFold_addr_split]

/-! ## Claim C5: the stored fee -/

theorem prevView_eq_of_outputs_view {s1 s2 : SqlState}
    (h : s1.transaction_outputs.map outRowView = s2.transaction_outputs.map outRowView)
    (ptx : String) (pv : Nat) : prevView s1 ptx pv = prevView s2 ptx pv := by
  unfold prevView getPreviousOutput
  have aux : ∀ (l1 l2 : List SqlOutputRow), l1.map outRowView = l2.map outRowView →
      (l1.find? (fun r => r.txid == ptx && r.vout == pv)).map (fun r => (r.value, r.address))
        = (l2.find? (fun r => r.txid == ptx && r.vout == pv)).map
            (fun r => (r.value, r.address)) := by
    intro l1
    induction l1 with
    | nil =>
        intro l2 h2
        cases l2 with
        | nil => rfl
        | cons b l2t => simp at h2
    | cons a l1t ih =>
        intro l2 h2
        cases l2 with
        | nil => simp at h2
        | cons b l2t =>
            simp only [List.map_cons, List.cons.injEq] at h2
            obtain ⟨hab, htail⟩ := h2
            have htx : a.txid = b.txid := congrArg (fun q => q.1) hab
            have hvo : a.vout = b.vout := congrArg (fun q => q.2.1) hab
            have hva : a.value = b.value := congrArg (fun q => q.2.2.1) hab
            have had : a.address = b.address := congrArg (fun q => q.2.2.2) hab
            by_cases hc : (b.txid == ptx && b.vout == pv) = true
            · have hca : (a.txid == ptx && a.vout == pv) = true := by
                rw [htx, hvo]; exact hc
              simp only [List.find?_cons, hca, hc]
              simp [hva, had]
            · have hcb : (b.txid == ptx && b.vout == pv) = false := by
                simpa using hc
              have hca : (a.txid == ptx && a.vout == pv) = false := by
                rw [htx, hvo]; exact hcb
              simp only [List.find?_cons, hca, hcb]
              exact ih l2t htail
  exact aux _ _ h

theorem vinContribution_eq_of_view {s1 s2 : SqlState}
    (h : s1.transaction_outputs.map outRowView = s2.transaction_outputs.map outRowView)
    (inp : VinData) : vinContribution s1 inp = vinContribution s2 inp := by
  unfold vinContribution
  cases inp.coinbase with
  | some _ => rfl
  | none =>
      cases inp.txid with
      | none => rfl
      | some ptx =>
          cases inp.vout with
          | none => rfl
          | some pv =>
              dsimp only
              rw [prevView_eq_of_outputs_view h]

theorem updateAddressInfo_outputs (a : String) (v : Int) (r : Bool) (bh : Option Nat)
    (st : SqlState) :
    (updateAddressInfo a v r bh st).transaction_outputs = st.transaction_outputs := rfl

theorem updateAddressInfo_transactions (a : String) (v : Int) (r : Bool) (bh : Option Nat)
    (st : SqlState) :
    (updateAddressInfo a v r bh st).transactions = st.transactions := rfl

theorem markOutputAsSpent_transactions (txid : String) (vout : Nat) (stx : String)
    (svout : Nat) (st : SqlState) :
    (markOutputAsSpent txid vout stx svout st).transactions = st.transactions := rfl

theorem simpleVinStep_outputs_view (tx : TxData) (i : Nat) (inp : VinData) (acc : InLoopAcc) :
    (simpleVinStep tx i inp acc).st.transaction_outputs.map outRowView
      = acc.st.transaction_outputs.map outRowView := by
  unfold simpleVinStep
  cases inp.coinbase with
  | some cb => rfl
  | none =>
      cases inp.txid with
      | none => cases inp.vout <;> rfl
      | some ptx =>
          cases inp.vout with
          | none => rfl
          | some pv =>
              dsimp only
              cases hp : getPreviousOutput acc.st ptx pv with
              | none =>
                  exact (markOutputAsSpent_outputs_view ptx pv tx.txid i _).trans rfl
              | some prev =>
                  dsimp only
                  by_cases hz : prev.value ≠ 0
                  · rw [if_pos hz]
                    cases prev.address with
                    | some paddr =>
                        dsimp only
                        rw [updateAddressInfo_outputs]
                        exact (markOutputAsSpent_outputs_view ptx pv tx.txid i _).trans rfl
                    | none =>
                        dsimp only
                        exact (markOutputAsSpent_outputs_view ptx pv tx.txid i _).trans rfl
                  · rw [if_neg hz]
                    exact (markOutputAsSpent_outputs_view ptx pv tx.txid i _).trans rfl

theorem simpleVinStep_transactions (tx : TxData) (i : Nat) (inp : VinData) (acc : InLoopAcc) :
    (simpleVinStep tx i inp acc).st.transactions = acc.st.transactions := by
  unfold simpleVinStep
  cases inp.coinbase with
  | some cb => rfl
  | none =>
      cases inp.txid with
      | none => cases inp.vout <;> rfl
      | some ptx =>
          cases inp.vout with
          | none => rfl
          | some pv =>
              dsimp only
              cases hp : getPreviousOutput acc.st ptx pv with
              | none => rfl
              | some prev =>
                  dsimp only
                  by_cases hz : prev.value ≠ 0
                  · rw [if_pos hz]
                    cases prev.address with
                    | some paddr => rfl
                    | none => rfl
                  · rw [if_neg hz]
                    rfl

theorem simpleVinStep_totalInput (tx : TxData) (i : Nat) (inp : VinData) (acc : InLoopAcc) :
    (simpleVinStep tx i inp acc).totalInput = acc.totalInput + vinContribution acc.st inp := by
  unfold simpleVinStep vinContribution
  cases inp.coinbase with
  | some cb => simp
  | none =>
      cases inp.txid with
      | none => cases inp.vout <;> simp
      | some ptx =>
          cases inp.vout with
          | none => simp
          | some pv =>
              dsimp only [prevView]
              cases hp : getPreviousOutput acc.st ptx pv with
              | none => simp [hp]
              | some prev =>
                  dsimp only
                  by_cases hz : prev.value ≠ 0
                  · rw [if_pos hz]
                    dsimp only [Option.map]
                    rw [if_pos hz]
                  · rw [if_neg hz]
                    dsimp only [Option.map]
                    rw [if_neg hz]
                    simp

theorem vinFold_props (tx : TxData) :
    ∀ (l : List (Nat × VinData)) (acc : InLoopAcc),
    ((l.foldl (fun a iv => simpleVinStep tx iv.1 iv.2 a) acc).totalInput
        = acc.totalInput + (l.map (fun iv => vinContribution acc.st iv.2)).sum)
    ∧ ((l.foldl (fun a iv => simpleVinStep tx iv.1 iv.2 a) acc).st.transaction_outputs.map
          outRowView
        = acc.st.transaction_outputs.map outRowView)
    ∧ ((l.foldl (fun a iv => simpleVinStep tx iv.1 iv.2 a) acc).st.transactions
        = acc.st.transactions) := by
  intro l
  induction l with
  | nil => intro acc; exact ⟨by simp, rfl, rfl⟩
  | cons x xs ih =>
      intro acc
      simp only [List.foldl_cons, List.map_cons, List.sum_cons]
      obtain ⟨ih1, ih2, ih3⟩ := ih (simpleVinStep tx x.1 x.2 acc)
      have hview := simpleVinStep_outputs_view tx x.1 x.2 acc
      refine ⟨?_, ?_, ?_⟩
      · rw [ih1, simpleVinStep_totalInput]
        have hc : ∀ iv ∈ xs,
            vinContribution (simpleVinStep tx x.1 x.2 acc).st iv.2
              = vinContribution acc.st iv.2 :=
          fun iv _ => vinContribution_eq_of_view hview iv.2
        rw [List.map_congr_left hc]
        omega
      · rw [ih2, hview]
      · rw [ih3, simpleVinStep_transactions]

theorem simpleVoutStep_totalOutput (tx : TxData) (o : VoutData) (acc : OutLoopAcc) :
    (simpleVoutStep tx o acc).totalOutput = acc.totalOutput + voutSats o := by
  unfold simpleVoutStep
  cases voutAddress o <;> rfl

theorem simpleVoutStep_transactions (tx : TxData) (o : VoutData) (acc : OutLoopAcc) :
    (simpleVoutStep tx o acc).st.transactions = acc.st.transactions := by
  unfold simpleVoutStep
  cases voutAddress o with
  | none => rfl
  | some a =>
      dsimp only
      rw [updateAddressInfo_transactions]
      rfl

theorem voutFold_props (tx : TxData) :
    ∀ (l : List VoutData) (acc : OutLoopAcc),
    ((l.foldl (fun a o => simpleVoutStep tx o a) acc).totalOutput
        = acc.totalOutput + (l.map voutSats).sum)
    ∧ ((l.foldl (fun a o => simpleVoutStep tx o a) acc).st.transactions
        = acc.st.transactions) := by
  intro l
  induction l with
  | nil => intro acc; exact ⟨by simp, rfl⟩
  | cons x xs ih =>
      intro acc
      simp only [List.foldl_cons, List.map_cons, List.sum_cons]
      obtain ⟨ih1, ih2⟩ := ih (simpleVoutStep tx x acc)
      refine ⟨?_, ?_⟩
      · rw [ih1, simpleVoutStep_totalOutput]
        omega
      · rw [ih2, simpleVoutStep_transactions]

theorem find?_fee_set (txid : String) (f : Int) :
    ∀ (l : List SqlTxRow), (l.find? (fun r => r.txid == txid)).isSome = true →
    ((l.map (fun r => if r.txid == txid then { r with fee := some f } else r)).find?
        (fun r => r.txid == txid)).bind (fun r => r.fee) = some f := by
  intro l
  induction l with
  | nil => intro h; simp at h
  | cons a t ih =>
      intro h
      by_cases ha : (a.txid == txid) = true
      · have hmap : (({ a with fee := some f } : SqlTxRow).txid == txid) = true := ha
        simp only [List.map_cons, ha, if_true, List.find?_cons, hmap]
        simp
      · have ha2 : (a.txid == txid) = false := by simpa using ha
        simp only [List.find?_cons, ha2] at h
        simp only [List.map_cons, ha2, Bool.false_eq_true, if_false, List.find?_cons]
        exact ih h

theorem lookupFee_updateFee (txid : String) (f : Int) (s : SqlState)
    (hsome : (s.transactions.find? (fun r => r.txid == txid)).isSome = true) :
    lookupFee (updateFee txid f s) txid = some f := by
  unfold lookupFee updateFee
  exact find?_fee_set txid f s.transactions hsome

/-- Claim C5 (amended): for a non-coinbase transaction whose inputs resolve
to a positive `totalInput`, `SimpleIndexer.indexTransaction` persists
`fee = totalInput - totalOutput` — including when that difference is
negative (`C5_negative_fee_stored`); coinbase transactions and
transactions with `totalInput = 0` keep the initially inserted
`tx.fee || null` instead. -/
theorem C5_amended_fee_equals_in_minus_out (tx : TxData) (st : SqlState)
    (hcb : isCoinbaseTx tx = false) (hpos : 0 < totalInputSpec st tx) :
    lookupFee (indexTransaction tx st) tx.txid
      = some (totalInputSpec st tx - totalOutputSpec tx) := by
  unfold indexTransaction
  dsimp only
  obtain ⟨h1, h2, h3⟩ := vinFold_props tx tx.vin.enum ⟨insertTxRow tx st, 0⟩
  obtain ⟨h4, h5⟩ := voutFold_props tx tx.vout
    ⟨(tx.vin.enum.foldl (fun a iv => simpleVinStep tx iv.1 iv.2 a)
        ⟨insertTxRow tx st, 0⟩).st, 0⟩
  have henum : (tx.vin.enum.map (fun iv => vinContribution (insertTxRow tx st) iv.2)).sum
      = totalInputSpec st tx := by
    have h6 : tx.vin.enum.map (fun iv => vinContribution (insertTxRow tx st) iv.2)
        = (tx.vin.enum.map Prod.snd).map (vinContribution (insertTxRow tx st)) := by
      rw [List.map_map]; rfl
    rw [totalInputSpec, h6, List.enum_map_snd]
    apply congrArg
    exact List.map_congr_left (fun inp _ => rfl)
  have hti : (tx.vin.enum.foldl (fun a iv => simpleVinStep tx iv.1 iv.2 a)
      ⟨insertTxRow tx st, 0⟩).totalInput = totalInputSpec st tx := by
    rw [h1, henum]; simp
  have hto : (tx.vout.foldl (fun a o => simpleVoutStep tx o a)
      ⟨(tx.vin.enum.foldl (fun a iv => simpleVinStep tx iv.1 iv.2 a)
          ⟨insertTxRow tx st, 0⟩).st, 0⟩).totalOutput = totalOutputSpec tx := by
    rw [h4, totalOutputSpec]; simp
  have hcond : isCoinbaseTx tx = false
      ∧ (tx.vin.enum.foldl (fun a iv => simpleVinStep tx iv.1 iv.2 a)
          ⟨insertTxRow tx st, 0⟩).totalInput > 0 := ⟨hcb, by rw [hti]; exact hpos⟩
  rw [if_pos hcond, hti, hto]
  apply lookupFee_updateFee
  rw [h5, h3]
  unfold insertTxRow
  dsimp only
  rw [find?_insertOrReplace_self _ _ _ (by simp)]
  rfl

/-- Witness for `C5_amended_fee_equals_in_minus_out` on `normalSpendTx`
(50 satoshis in, 10 out, stored fee 40). -/
theorem C5_amended_fee_witness :
    isCoinbaseTx normalSpendTx = false
    ∧ 0 < totalInputSpec feeBaseSql normalSpendTx
    ∧ lookupFee (indexTransaction normalSpendTx feeBaseSql) normalSpendTx.txid
        = some (totalInputSpec feeBaseSql normalSpendTx - totalOutputSpec normalSpendTx) :=
  ⟨by decide, by decide,
   C5_amended_fee_equals_in_minus_out normalSpendTx feeBaseSql (by decide) (by decide)⟩

/-! ## Claim C4: batch-granular commits -/

theorem syncLoop_props (getBlock : Nat → Except RpcError BlockData)
    (getTx : String → Except RpcError TxData) (bs tH : Nat) (hbs : 1 ≤ bs) :
    ∀ (fuel height : Nat) (st : SqlState) (acc : List (List Nat)),
    (tH + 2 - height ≤ fuel ∨ tH < height) →
    ∃ (cs : List (List Nat)) (k : Nat),
      (syncLoop getBlock getTx bs tH fuel height st acc).commits = acc ++ cs
      ∧ (∀ c ∈ cs, c ≠ [] ∧ c.length ≤ bs)
      ∧ k ≤ tH + 1 - height
      ∧ cs.join = List.range' height k
      ∧ ((syncLoop getBlock getTx bs tH fuel height st acc).failed = false
          → k = tH + 1 - height)
      ∧ processCommits getBlock getTx cs st
          = Except.ok (syncLoop getBlock getTx bs tH fuel height st acc).state := by
  intro fuel
  induction fuel with
  | zero =>
      intro height st acc hcond
      have hgt : tH < height := by omega
      refine ⟨[], 0, by simp [syncLoop], by simp, by omega, by simp, ?_, ?_⟩
      · intro _; omega
      · rfl
  | succ fuel ih =>
      intro height st acc hcond
      by_cases hgt : height > tH
      · refine ⟨[], 0, ?_, by simp, by omega, by simp, ?_, ?_⟩
        · simp [syncLoop, hgt]
        · intro _; omega
        · rw [syncLoop, if_pos hgt]
          rfl
      · have hle : height ≤ tH := by omega
        cases hpb : processBatch getBlock getTx
            (List.range' height (min (height + bs - 1) tH + 1 - height)) st with
        | error e =>
            have hstep : syncLoop getBlock getTx bs tH (fuel+1) height st acc
                = ⟨st, acc, true⟩ := by
              rw [syncLoop]
              rw [if_neg hgt]
              dsimp only
              rw [hpb]
            refine ⟨[], 0, by simp [hstep], by simp, by omega, by simp, ?_, ?_⟩
            · intro hfalse; rw [hstep] at hfalse; simp at hfalse
            · rw [hstep]
              rfl
        | ok st1 =>
            have hstep : syncLoop getBlock getTx bs tH (fuel+1) height st acc
                = syncLoop getBlock getTx bs tH fuel (height + bs) st1
                    (acc ++ [List.range' height (min (height + bs - 1) tH + 1 - height)]) := by
              rw [syncLoop]
              rw [if_neg hgt]
              dsimp only
              rw [hpb]
            have hcond2 : tH + 2 - (height + bs) ≤ fuel ∨ tH < height + bs := by omega
            obtain ⟨cs, k, hc1, hc2, hk, hj, hf, hpc⟩ :=
              ih (height + bs) st1
                (acc ++ [List.range' height (min (height + bs - 1) tH + 1 - height)]) hcond2
            refine ⟨List.range' height (min (height + bs - 1) tH + 1 - height) :: cs,
              (min (height + bs - 1) tH + 1 - height) + k, ?_, ?_, by omega, ?_, ?_, ?_⟩
            · rw [hstep, hc1]
              simp
            · intro c hc
              rcases List.mem_cons.mp hc with rfl | hmem
              · constructor
                · rw [List.range'_ne_nil]
                  omega
                · rw [List.length_range']
                  omega
              · exact hc2 c hmem
            · simp only [List.join] at hj ⊢
              simp only [List.flatten_cons]
              rw [hj]
              by_cases hk0 : k = 0
              · subst hk0
                simp
              · have hlen : min (height + bs - 1) tH + 1 - height = bs := by omega
                rw [hlen, List.range'_append_1, Nat.add_comm k bs]
            · intro hfalse
              rw [hstep] at hfalse
              have := hf hfalse
              omega
            · rw [hstep]
              simp only [processCommits] at hpc ⊢
              rw [List.foldlM_cons, hpb]
              simpa using hpc

/-- Claim C4 (amended): batch sync processes heights in batches of up to
`batchSize` consecutive heights, with one store transaction per batch (not
per height); commits happen in strictly increasing height order with no
height skipped or duplicated (the committed heights are exactly the
contiguous range `fromHeight..fromHeight+k-1`, the full range when no
batch failed); and a failure inside a batch rolls the whole batch back —
the visible state is exactly the sequential composition of the committed
batches. -/
theorem C4_amended_batched_atomic_commits (getBlock : Nat → Except RpcError BlockData)
    (getTx : String → Except RpcError TxData) (batchSize fromHeight toHeight : Nat)
    (st : SqlState) (hbs : 1 ≤ batchSize) :
    ∃ k : Nat,
      (syncBlocksSimple getBlock getTx batchSize fromHeight toHeight st).commits.join
          = List.range' fromHeight k
      ∧ k ≤ toHeight + 1 - fromHeight
      ∧ ((syncBlocksSimple getBlock getTx batchSize fromHeight toHeight st).failed = false
          → k = toHeight + 1 - fromHeight)
      ∧ (∀ c ∈ (syncBlocksSimple getBlock getTx batchSize fromHeight toHeight st).commits,
          c ≠ [] ∧ c.length ≤ batchSize)
      ∧ processCommits getBlock getTx
          (syncBlocksSimple getBlock getTx batchSize fromHeight toHeight st).commits st
          = Except.ok (syncBlocksSimple getBlock getTx batchSize fromHeight toHeight st).state := by
  obtain ⟨cs, k, hc1, hc2, hk, hj, hf, hpc⟩ :=
    syncLoop_props getBlock getTx batchSize toHeight hbs
      (toHeight + 2 - fromHeight) fromHeight st [] (Or.inl (le_refl _))
  have hcs : (syncBlocksSimple getBlock getTx batchSize fromHeight toHeight st).commits = cs := by
    rw [syncBlocksSimple, hc1]
    simp
  refine ⟨k, ?_, hk, ?_, ?_, ?_⟩
  · rw [hcs, hj]
  · exact hf
  · rw [hcs]; exact hc2
  · rw [hcs]; exact hpc

/-- Witness for `C4_amended_batched_atomic_commits` at `batchSize = 2`,
heights 1..2. -/
theorem C4_amended_batched_atomic_commits_witness :
    1 ≤ 2
    ∧ ∃ k : Nat,
      (syncBlocksSimple twoBlocksRpc (fun _ => .error ⟨-5⟩) 2 1 2 initialSql).commits.join
          = List.range' 1 k
      ∧ k ≤ 2 + 1 - 1
      ∧ ((syncBlocksSimple twoBlocksRpc (fun _ => .error ⟨-5⟩) 2 1 2 initialSql).failed = false
          → k = 2 + 1 - 1)
      ∧ (∀ c ∈ (syncBlocksSimple twoBlocksRpc (fun _ => .error ⟨-5⟩) 2 1 2 initialSql).commits,
          c ≠ [] ∧ c.length ≤ 2)
      ∧ processCommits twoBlocksRpc (fun _ => .error ⟨-5⟩)
          (syncBlocksSimple twoBlocksRpc (fun _ => .error ⟨-5⟩) 2 1 2 initialSql).commits
          initialSql
          = Except.ok (syncBlocksSimple twoBlocksRpc (fun _ => .error ⟨-5⟩) 2 1 2 initialSql).state :=
  ⟨by decide,
   C4_amended_batched_atomic_commits twoBlocksRpc (fun _ => .error ⟨-5⟩) 2 1 2 initialSql
     (by decide)⟩

/-! ## Claim C1: the balance invariant under credit and debit -/

theorem sumUnspentFor_append (l1 l2 : List UtxoRow) (x : String) :
    sumUnspentFor (l1 ++ l2) x = sumUnspentFor l1 x + sumUnspentFor l2 x := by
  unfold sumUnspentFor
  rw [List.filter_append, List.map_append, List.sum_append]

theorem sumUnspentFor_cons (v : UtxoRow) (t : List UtxoRow) (x : String) :
    sumUnspentFor (v :: t) x
      = (if (v.address == x && !v.is_spent) = true then v.value else 0)
        + sumUnspentFor t x := by
  unfold sumUnspentFor
  by_cases h : (v.address == x && !v.is_spent) = true <;> simp [List.filter_cons, h]

theorem sumUnspentFor_single (u : UtxoRow) (x : String) :
    sumUnspentFor [u] x = if (u.address == x && !u.is_spent) = true then u.value else 0 := by
  rw [show [u] = u :: [] from rfl, sumUnspentFor_cons]
  simp [sumUnspentFor]

theorem mem_replaceFirst {α : Type} (p : α → Bool) (x y : α) :
    ∀ (l : List α), y ∈ replaceFirst p x l → y = x ∨ y ∈ l := by
  intro l
  induction l with
  | nil => intro h; simp [replaceFirst] at h
  | cons a t ih =>
      intro h
      by_cases ha : p a = true
      · simp only [replaceFirst, ha, if_true] at h
        rcases List.mem_cons.mp h with rfl | h2
        · exact Or.inl rfl
        · exact Or.inr (List.mem_cons.mpr (Or.inr h2))
      · have ha2 : p a = false := by simpa using ha
        simp only [replaceFirst, ha2, Bool.false_eq_true, if_false] at h
        rcases List.mem_cons.mp h with rfl | h2
        · exact Or.inr (List.mem_cons.mpr (Or.inl rfl))
        · rcases ih h2 with h3 | h3
          · exact Or.inl h3
          · exact Or.inr (List.mem_cons.mpr (Or.inr h3))

theorem applyBalanceChange_rsb (row : AddressRow) (c : Int) (r : Bool)
    (h : row.total_received - row.total_sent = row.balance) :
    (applyBalanceChange row c r).total_received - (applyBalanceChange row c r).total_sent
      = (applyBalanceChange row c r).balance := by
  unfold applyBalanceChange
  by_cases hr : r = true <;> simp [hr] <;> omega

theorem rsb_updateAddressBalance (a : String) (c : Int) (r : Bool) (st : DbState)
    (h : ReceivedSentInvariant st) :
    ReceivedSentInvariant (updateAddressBalance false a c r st) := by
  intro row hrow
  revert hrow
  unfold updateAddressBalance
  cases hfind : st.addresses.find? (fun w => w.address == a) with
  | some w =>
      intro hrow
      dsimp only at hrow
      rcases mem_replaceFirst _ _ _ _ hrow with rfl | h2
      · exact applyBalanceChange_rsb w c r (h w (List.mem_of_find?_eq_some hfind))
      · exact h row h2
  | none =>
      intro hrow
      dsimp only at hrow
      rcases List.mem_append.mp hrow with h2 | h2
      · exact h row h2
      · have hx : row = applyBalanceChange (newAddressRow a) c r := by simpa using h2
        rw [hx]
        exact applyBalanceChange_rsb _ c r (by simp [newAddressRow])

theorem balanceOf_updateAddressBalance (a : String) (c : Int) (r : Bool) (st : DbState)
    (x : String) :
    balanceOf (updateAddressBalance false a c r st) x
      = if x = a then (if r = true then balanceOf st a + c else balanceOf st a - c)
        else balanceOf st x := by
  unfold balanceOf
  rw [find?_updateAddressBalance]
  by_cases hx : x = a
  · subst hx
    rw [if_pos rfl, if_pos rfl]
    cases hfind : st.addresses.find? (fun row => row.address == x) with
    | some row => by_cases hr : r = true <;> simp [hr, applyBalanceChange]
    | none => by_cases hr : r = true <;> simp [hr, applyBalanceChange, newAddressRow]
  · rw [if_neg hx, if_neg hx]

theorem updateAddressBalance_utxos (fail : Bool) (a : String) (c : Int) (r : Bool)
    (st : DbState) : (updateAddressBalance fail a c r st).utxos = st.utxos := by
  rw [updateAddressBalance_core]

theorem saveTransactionOutput_addresses (st : DbState) (txid : String) (o : VoutData) :
    (saveTransactionOutput st txid o).addresses = st.addresses := by
  unfold saveTransactionOutput
  split <;> rfl

theorem saveTransactionOutput_utxos (st : DbState) (txid : String) (o : VoutData) :
    (saveTransactionOutput st txid o).utxos = st.utxos := by
  unfold saveTransactionOutput
  split <;> rfl

theorem saveUTXO_addresses (st : DbState) (txid : String) (oi : Nat) (a : String)
    (v : Int) (bh bt : Nat) : (saveUTXO st txid oi a v bh bt).addresses = st.addresses := by
  unfold saveUTXO
  split <;> rfl

theorem balanceOf_congr {s t : DbState} (h : s.addresses = t.addresses) (x : String) :
    balanceOf s x = balanceOf t x := by
  unfold balanceOf
  rw [h]

theorem utxo_keys_nodup_append (l : List UtxoRow) (row : UtxoRow)
    (hfind : l.find? (fun u => u.transaction_id == row.transaction_id
        && u.output_index == row.output_index) = none)
    (hnd : (l.map (fun u => (u.transaction_id, u.output_index))).Nodup) :
    ((l ++ [row]).map (fun u => (u.transaction_id, u.output_index))).Nodup := by
  rw [List.map_append]
  apply List.Nodup.append hnd (by simp)
  intro p hp hp2
  have hpk : p = (row.transaction_id, row.output_index) := by simpa using hp2
  rcases List.mem_map.mp hp with ⟨u, hu, hkey⟩
  have hfound := List.find?_eq_none.mp hfind u hu
  apply hfound
  have h1 : u.transaction_id = row.transaction_id := by
    have := congrArg Prod.fst (hkey.trans hpk)
    simpa using this
  have h2 : u.output_index = row.output_index := by
    have := congrArg Prod.snd (hkey.trans hpk)
    simpa using this
  simp [h1, h2]

theorem sumUnspentFor_spend (ptx : String) (pv : Nat) (stx : String) (sbi sah : Nat)
    (x : String) :
    ∀ (l : List UtxoRow) (u : UtxoRow),
    (l.map (fun w => (w.transaction_id, w.output_index))).Nodup →
    l.find? (fun w => w.transaction_id == ptx && w.output_index == pv) = some u →
    u.is_spent = false →
    sumUnspentFor (l.map (fun w =>
        if w.transaction_id == ptx && w.output_index == pv then
          { w with is_spent := true, spent_by_txid := some stx,
                   spent_by_input_index := some sbi, spent_at_height := some sah }
        else w)) x
      = sumUnspentFor l x - (if (u.address == x) = true then u.value else 0) := by
  intro l
  induction l with
  | nil => intro u _ hfind _; simp at hfind
  | cons v t ih =>
      intro u hnd hfind hunspent
      simp only [List.map_cons]
      rcases List.nodup_cons.mp hnd with ⟨hnotin, hndt⟩
      by_cases hv : (v.transaction_id == ptx && v.output_index == pv) = true
      · have hu : v = u := by
          simp only [List.find?_cons, hv] at hfind
          simpa using hfind
        subst hu
        rcases Bool.and_eq_true_iff.mp hv with ⟨hv1, hv2⟩
        have htail : ∀ w ∈ t,
            (w.transaction_id == ptx && w.output_index == pv) = false := by
          intro w hw
          cases hxw : (w.transaction_id == ptx && w.output_index == pv) with
          | false => rfl
          | true =>
              rcases Bool.and_eq_true_iff.mp hxw with ⟨hw1, hw2⟩
              exfalso
              apply hnotin
              apply List.mem_map.mpr
              refine ⟨w, hw, ?_⟩
              have e1 : w.transaction_id = v.transaction_id := by
                rw [eq_of_beq hw1, eq_of_beq hv1]
              have e2 : w.output_index = v.output_index := by
                rw [eq_of_beq hw2, eq_of_beq hv2]
              rw [e1, e2]
        have hmapt : t.map (fun w =>
            if w.transaction_id == ptx && w.output_index == pv then
              { w with is_spent := true, spent_by_txid := some stx,
                       spent_by_input_index := some sbi, spent_at_height := some sah }
            else w) = t := by
          calc t.map (fun w =>
              if w.transaction_id == ptx && w.output_index == pv then
                { w with is_spent := true, spent_by_txid := some stx,
                         spent_by_input_index := some sbi, spent_at_height := some sah }
              else w)
              = t.map id := List.map_congr_left (fun w hw => by simp [htail w hw])
            _ = t := List.map_id t
        rw [if_pos hv, hmapt, sumUnspentFor_cons, sumUnspentFor_cons, hunspent]
        by_cases haddr : (v.address == x) = true <;> simp [haddr] <;> omega
      · have hvf : (v.transaction_id == ptx && v.output_index == pv) = false := by
          simpa using hv
        simp only [List.find?_cons, hvf] at hfind
        rw [if_neg hv, sumUnspentFor_cons, sumUnspentFor_cons,
          ih u hndt hfind hunspent]
        omega

theorem saveUTXO_utxos_fresh (X : DbState) (txid : String) (oi : Nat) (a : String)
    (v : Int) (bh bt : Nat)
    (hfresh : X.utxos.find?
        (fun u => u.transaction_id == txid && u.output_index == oi) = none) :
    (saveUTXO X txid oi a v bh bt).utxos
      = X.utxos ++ [⟨txid, oi, a, v, bh, bt, false, none, none, none⟩] := by
  unfold saveUTXO
  rw [hfresh]
  simp

/-- Claim C1 (amended): provided the internal balance update is not
swallowed by its catch handler, the credit of a fresh output (the output
loop body of `processTransaction`) and the debit of a tracked unspent
input (`processInputSpending`) both preserve the balance invariant
`balance = Σ value of unspent utxo rows of the address`, the identity
`total_received - total_sent = balance` on every address row, and the
uniqueness of utxo keys.  (Replay of an already-stored transaction breaks
the invariant: `C1_replay_breaks_invariant`.) -/
theorem C1_amended_credit_debit_preserve_invariant :
    (∀ (txid : String) (bh bt : Nat) (o : VoutData) (st : DbState),
        UtxoKeysNodup st → BalanceInvariant st → ReceivedSentInvariant st →
        st.utxos.find? (fun u => u.transaction_id == txid && u.output_index == o.n) = none →
        BalanceInvariant (processOutputVout false txid bh bt o st)
        ∧ ReceivedSentInvariant (processOutputVout false txid bh bt o st)
        ∧ UtxoKeysNodup (processOutputVout false txid bh bt o st))
    ∧ (∀ (ptx : String) (pv : Nat) (stx : String) (h : Nat) (st : DbState),
        UtxoKeysNodup st → BalanceInvariant st → ReceivedSentInvariant st →
        BalanceInvariant (processInputSpending false ptx pv stx h st)
        ∧ ReceivedSentInvariant (processInputSpending false ptx pv stx h st)
        ∧ UtxoKeysNodup (processInputSpending false ptx pv stx h st)) := by
  constructor
  · intro txid bh bt o st hnd hbal hrsb hfresh
    unfold processOutputVout
    cases ha : voutAddress o with
    | none =>
        dsimp only
        refine ⟨?_, ?_, ?_⟩
        · intro x
          calc balanceOf (saveTransactionOutput st txid o) x
              = balanceOf st x := balanceOf_congr (saveTransactionOutput_addresses st txid o) x
            _ = sumUnspentFor st.utxos x := hbal x
            _ = sumUnspentFor (saveTransactionOutput st txid o).utxos x := by
                rw [saveTransactionOutput_utxos]
        · intro row hrow
          rw [saveTransactionOutput_addresses] at hrow
          exact hrsb row hrow
        · unfold UtxoKeysNodup
          rw [saveTransactionOutput_utxos]
          exact hnd
    | some addr =>
        dsimp only
        have hut : (updateAddressBalance false addr (voutSats o) true
            (saveTransactionOutput st txid o)).utxos = st.utxos := by
          rw [updateAddressBalance_utxos, saveTransactionOutput_utxos]
        have hfresh2 : ((updateAddressBalance false addr (voutSats o) true
            (saveTransactionOutput st txid o)).utxos.find?
              (fun u => u.transaction_id == txid && u.output_index == o.n)) = none := by
          rw [hut]; exact hfresh
        have hutApp := saveUTXO_utxos_fresh
          (updateAddressBalance false addr (voutSats o) true (saveTransactionOutput st txid o))
          txid o.n addr (voutSats o) bh bt hfresh2
        refine ⟨?_, ?_, ?_⟩
        · intro x
          have hb : balanceOf (saveUTXO (updateAddressBalance false addr (voutSats o) true
                (saveTransactionOutput st txid o)) txid o.n addr (voutSats o) bh bt) x
              = balanceOf (updateAddressBalance false addr (voutSats o) true
                  (saveTransactionOutput st txid o)) x :=
            balanceOf_congr (saveUTXO_addresses _ _ _ _ _ _ _) x
          rw [hb, balanceOf_updateAddressBalance, hutApp, hut, sumUnspentFor_append,
            sumUnspentFor_single]
          have hbs : balanceOf (saveTransactionOutput st txid o) addr = balanceOf st addr :=
            balanceOf_congr (saveTransactionOutput_addresses st txid o) addr
          have hbx : balanceOf (saveTransactionOutput st txid o) x = balanceOf st x :=
            balanceOf_congr (saveTransactionOutput_addresses st txid o) x
          by_cases hx : x = addr
          · subst hx
            rw [if_pos rfl, if_pos rfl, hbs, hbal x]
            have haddr : ((x : String) == x) = true := beq_iff_eq.mpr rfl
            simp [haddr]
          · rw [if_neg hx, hbx, hbal x]
            have haddr : ((addr : String) == x) = false := by
              apply beq_eq_false_iff_ne.mpr
              exact fun hcontra => hx hcontra.symm
            simp [haddr]
        · intro row hrow
          rw [saveUTXO_addresses] at hrow
          apply rsb_updateAddressBalance addr (voutSats o) true
            (saveTransactionOutput st txid o) ?_ row hrow
          intro row2 hrow2
          rw [saveTransactionOutput_addresses] at hrow2
          exact hrsb row2 hrow2
        · unfold UtxoKeysNodup
          rw [hutApp, hut]
          exact utxo_keys_nodup_append st.utxos
            ⟨txid, o.n, addr, voutSats o, bh, bt, false, none, none, none⟩ hfresh hnd
  · intro ptx pv stx h st hnd hbal hrsb
    unfold processInputSpending
    cases hfind : getUTXOByTxidAndIndex st ptx pv with
    | none =>
        dsimp only
        exact ⟨hbal, hrsb, hnd⟩
    | some u =>
        dsimp only
        by_cases hs : u.is_spent = true
        · rw [if_pos hs]
          exact ⟨hbal, hrsb, hnd⟩
        · have hs2 : u.is_spent = false := by simpa using hs
          rw [if_neg hs]
          refine ⟨?_, ?_, ?_⟩
          · intro x
            rw [balanceOf_updateAddressBalance]
            have hsum : sumUnspentFor (updateAddressBalance false u.address u.value false
                (spendUTXO st ptx pv stx 0 h)).utxos x
                = sumUnspentFor st.utxos x
                    - (if (u.address == x) = true then u.value else 0) := by
              rw [updateAddressBalance_utxos]
              exact sumUnspentFor_spend ptx pv stx 0 h x st.utxos u hnd hfind hs2
            rw [hsum]
            have hba : ∀ y, balanceOf (spendUTXO st ptx pv stx 0 h) y = balanceOf st y :=
              fun y => balanceOf_congr rfl y
            by_cases hx : x = u.address
            · subst hx
              rw [if_pos rfl]
              have haddr : (u.address == u.address) = true := beq_iff_eq.mpr rfl
              rw [hba u.address, hbal u.address]
              simp [haddr]
            · rw [if_neg hx]
              have haddr : (u.address == x) = false := by
                apply beq_eq_false_iff_ne.mpr
                exact fun hcontra => hx hcontra.symm
              rw [hba x, hbal x]
              simp [haddr]
          · apply rsb_updateAddressBalance
            intro row hrow
            exact hrsb row hrow
          · unfold UtxoKeysNodup
            rw [updateAddressBalance_utxos]
            have hkeys : ((spendUTXO st ptx pv stx 0 h).utxos.map
                  (fun u => (u.transaction_id, u.output_index)))
                = st.utxos.map (fun u => (u.transaction_id, u.output_index)) := by
              show ((st.utxos.map _).map _) = _
              rw [List.map_map]
              apply List.map_congr_left
              intro w _
              simp only [Function.comp_apply]
              split <;> rfl
            rw [hkeys]
            exact hnd

/-- Witness for `C1_amended_credit_debit_preserve_invariant`: a fresh
credit into the empty store and a debit probe against the empty store. -/
theorem C1_amended_credit_debit_preserve_invariant_witness :
    (UtxoKeysNodup initialDb ∧ BalanceInvariant initialDb
      ∧ ReceivedSentInvariant initialDb
      ∧ initialDb.utxos.find?
          (fun u => u.transaction_id == "cb1" && u.output_index == vout50X.n) = none)
    ∧ BalanceInvariant (processOutputVout false "cb1" 1 0 vout50X initialDb)
    ∧ BalanceInvariant (processInputSpending false "aa" 0 "bb" 2 initialDb) := by
  have hnd : UtxoKeysNodup initialDb := by simp [UtxoKeysNodup, initialDb]
  have hbal : BalanceInvariant initialDb := fun a => rfl
  have hrsb : ReceivedSentInvariant initialDb := by
    intro row hrow
    simp [initialDb] at hrow
  have hfresh : initialDb.utxos.find?
      (fun u => u.transaction_id == "cb1" && u.output_index == vout50X.n) = none := rfl
  refine ⟨⟨hnd, hbal, hrsb, hfresh⟩, ?_, ?_⟩
  · exact (C1_amended_credit_debit_preserve_invariant.1 "cb1" 1 0 vout50X initialDb
      hnd hbal hrsb hfresh).1
  · exact (C1_amended_credit_debit_preserve_invariant.2 "aa" 0 "bb" 2 initialDb
      hnd hbal hrsb).1
